import Mathlib

/-!
Verification of the 6502 CPU core of the nes-emulator repository.

The CPU interpreter (src/src/cpu.rs) is embedded shallowly: machine bytes
and words are Nat values kept below 256 and 65536 by explicit reductions,
the status register is a Nat byte manipulated with the same bit operations
as the Rust bitflags calls, memory is a total function from addresses to
bytes abstracting the bus routing, and every fallible operation (checked
u16 additions, unknown opcodes, NoneAddressing resolution) returns Option.

The bus module (bus.rs) and the opcode table (opcodes.rs) are not part of
the available sources; the pieces of them that the claims need are modelled
from the specification and marked as such.
-/

set_option maxRecDepth 8000

namespace NesCpu

/-- Bus state visible to the CPU: a flat byte memory abstracting the address
routing, the running cycle counter, the PPU cycle counter advanced by tick,
and the NMI latch that poll_nmi_status would consume. -/
structure Bus where
  mem : Nat → Nat
  cycles : Nat
  ppuCycles : Nat
  nmiPending : Bool

/-- Read one byte from the bus at a 16-bit address. -/
def busRead (b : Bus) (addr : Nat) : Nat :=
  b.mem (addr % 65536) % 256

/-- Write one byte to the bus at a 16-bit address. -/
def busWrite (b : Bus) (addr v : Nat) : Bus :=
  { b with mem := fun x => if x = addr % 65536 then v % 256 else b.mem x }

/-- Modelled from the spec: bus.rs is not under src/. Per spec section 4.5,
tick(cpu_cycles) advances the PPU by 3 times cpu_cycles and advances the
internal cycle counter. The run loop under scrutiny never invokes it. -/
def Bus.tick (b : Bus) (cpuCycles : Nat) : Bus :=
  { b with cycles := b.cycles + cpuCycles, ppuCycles := b.ppuCycles + 3 * cpuCycles }

/-- Modelled from the spec: bus.rs is not under src/. Per spec section 4.5,
poll_nmi_status reads and clears the pending NMI latch. The run loop under
scrutiny never invokes it. -/
def Bus.pollNmiStatus (b : Bus) : Bool × Bus :=
  (b.nmiPending, { b with nmiPending := false })

/-- Flag bit CARRY of the status register (bitflags in cpu.rs). -/
def CARRY : Nat := 1
/-- Flag bit ZERO of the status register. -/
def ZERO : Nat := 2
/-- Flag bit INTERRUPT_DISABLE of the status register. -/
def INTERRUPT_DISABLE : Nat := 4
/-- Flag bit DECIMAL_MODE of the status register. -/
def DECIMAL_MODE : Nat := 8
/-- Flag bit BREAK of the status register. -/
def BREAK : Nat := 16
/-- Flag bit BREAK2 of the status register. -/
def BREAK2 : Nat := 32
/-- Flag bit OVERFLOW of the status register. -/
def OVERFLOW : Nat := 64
/-- Flag bit NEGATIV of the status register (name as in the source). -/
def NEGATIV : Nat := 128

/-- bitflags insert: set the given flag bits. -/
def insertFlag (p f : Nat) : Nat := p ||| f

/-- bitflags remove: clear the given flag bits (complement within a byte). -/
def removeFlag (p f : Nat) : Nat := p &&& (255 ^^^ f)

/-- bitflags contains: all given flag bits are set. -/
def containsFlag (p f : Nat) : Bool := p &&& f = f

/-- bitflags set: insert when the condition holds, remove otherwise. -/
def setFlag (p f : Nat) (b : Bool) : Nat :=
  if b then insertFlag p f else removeFlag p f

/-- CPU state of struct CPU in cpu.rs: registers A, X, Y, status byte P,
16-bit program counter, 8-bit stack pointer, and the owned bus. -/
structure CPU where
  register_a : Nat
  register_x : Nat
  register_y : Nat
  register_p : Nat
  program_counter : Nat
  stack_pointer : Nat
  bus : Bus

/-- CPU mem_read: forwarded to the bus. -/
def CPU.memRead (s : CPU) (addr : Nat) : Nat := busRead s.bus addr

/-- CPU mem_write: forwarded to the bus. -/
def CPU.memWrite (s : CPU) (addr v : Nat) : CPU :=
  { s with bus := busWrite s.bus addr v }

/-- Checked u16 arithmetic: a plus on u16 in the source panics when the
result exceeds 0xFFFF, so the embedding returns none there. -/
def chk16 (x : Nat) : Option Nat :=
  if x < 65536 then some x else none

/-- mem_read_u16: little-endian word read, low byte at pos, high byte at
pos + 1 with the checked u16 increment of the Mem trait default. -/
def memReadU16 (s : CPU) (pos : Nat) : Option Nat := do
  let p1 ← chk16 (pos + 1)
  pure (256 * s.memRead p1 + s.memRead pos)

/-- STACK base address 0x0100. -/
def STACK : Nat := 0x0100

/-- stack_push: write at 0x0100 + S, then decrement S wrapping mod 256. -/
def stackPush (s : CPU) (v : Nat) : CPU :=
  let s1 := s.memWrite (STACK + s.stack_pointer) v
  { s1 with stack_pointer := (s1.stack_pointer + 255) % 256 }

/-- stack_pop: increment S wrapping mod 256, then read at 0x0100 + S. -/
def stackPop (s : CPU) : Nat × CPU :=
  let sp1 := (s.stack_pointer + 1) % 256
  (busRead s.bus (STACK + sp1), { s with stack_pointer := sp1 })

/-- stack_push_u16: push high byte, then low byte. -/
def stackPushU16 (s : CPU) (v : Nat) : CPU :=
  let hi := (v / 256) % 256
  let lo := v % 256
  stackPush (stackPush s hi) lo

/-- stack_pop_u16: pop low byte, then high byte. -/
def stackPopU16 (s : CPU) : Nat × CPU :=
  let r1 := stackPop s
  let r2 := stackPop r1.2
  (256 * r2.1 + r1.1, r2.2)

/-- set_carry_flag. -/
def setCarryFlag (s : CPU) : CPU :=
  { s with register_p := insertFlag s.register_p CARRY }

/-- clear_carry_flag. -/
def clearCarryFlag (s : CPU) : CPU :=
  { s with register_p := removeFlag s.register_p CARRY }

/-- update_zero_and_negative_flags: Zero from result equal to zero,
Negative from bit 7 of the result. -/
def updateZN (s : CPU) (result : Nat) : CPU :=
  let p1 := if result = 0 then insertFlag s.register_p ZERO
            else removeFlag s.register_p ZERO
  let p2 := if result &&& 128 ≠ 0 then insertFlag p1 NEGATIV
            else removeFlag p1 NEGATIV
  { s with register_p := p2 }

/-- set_register_a: assign A then update Zero and Negative from it. -/
def setRegisterA (s : CPU) (v : Nat) : CPU :=
  updateZN { s with register_a := v } v

/-- add_to_register_a: 9-bit sum of A, data and carry-in; Carry from the
sum exceeding 0xFF; Overflow from the sign-bit formula of the source;
result is the low byte, assigned through set_register_a. -/
def addToRegisterA (s : CPU) (data : Nat) : CPU :=
  let sum := s.register_a + data + (if containsFlag s.register_p CARRY then 1 else 0)
  let p1 := if sum > 255 then insertFlag s.register_p CARRY
            else removeFlag s.register_p CARRY
  let result := sum % 256
  let p2 := if (data ^^^ result) &&& (result ^^^ s.register_a) &&& 128 ≠ 0
            then insertFlag p1 OVERFLOW
            else removeFlag p1 OVERFLOW
  setRegisterA { s with register_p := p2 } result

/-- Addressing modes of enum AddressingMode in cpu.rs. -/
inductive Mode where
  | immediate
  | zeroPage
  | zeroPageX
  | zeroPageY
  | absolute
  | absoluteX
  | absoluteY
  | indirectX
  | indirectY
  | noneAddressing
deriving DecidableEq

/-- get_operand_address: operand resolution per addressing mode; zero-page
index arithmetic wraps mod 256, absolute index arithmetic wraps mod 65536,
NoneAddressing panics (none), and Absolute word reads use mem_read_u16. -/
def getOperandAddress (s : CPU) (m : Mode) : Option Nat :=
  match m with
  | .immediate => some s.program_counter
  | .zeroPage => some (s.memRead s.program_counter)
  | .absolute => memReadU16 s s.program_counter
  | .zeroPageX => some ((s.memRead s.program_counter + s.register_x) % 256)
  | .zeroPageY => some ((s.memRead s.program_counter + s.register_y) % 256)
  | .absoluteX => do
      let base ← memReadU16 s s.program_counter
      pure ((base + s.register_x) % 65536)
  | .absoluteY => do
      let base ← memReadU16 s s.program_counter
      pure ((base + s.register_y) % 65536)
  | .indirectX =>
      let base := s.memRead s.program_counter
      let ptr := (base + s.register_x) % 256
      let lo := s.memRead ptr
      let hi := s.memRead ((ptr + 1) % 256)
      some (256 * hi + lo)
  | .indirectY =>
      let base := s.memRead s.program_counter
      let lo := s.memRead base
      let hi := s.memRead ((base + 1) % 256)
      some ((256 * hi + lo + s.register_y) % 65536)
  | .noneAddressing => none

/-- tax. -/
def tax (s : CPU) : CPU :=
  updateZN { s with register_x := s.register_a } s.register_a

/-- tay. -/
def tay (s : CPU) : CPU :=
  updateZN { s with register_y := s.register_a } s.register_a

/-- txa. -/
def txa (s : CPU) : CPU :=
  setRegisterA s s.register_x

/-- tya. -/
def tya (s : CPU) : CPU :=
  setRegisterA s s.register_y

/-- tsx. -/
def tsx (s : CPU) : CPU :=
  updateZN { s with register_x := s.stack_pointer } s.stack_pointer

/-- txs: no flag update. -/
def txs (s : CPU) : CPU :=
  { s with stack_pointer := s.register_x }

/-- inc: wrapping increment of the operand byte, write back, update flags. -/
def inc (s : CPU) (m : Mode) : Option CPU := do
  let addr ← getOperandAddress s m
  let v := (s.memRead addr + 1) % 256
  pure (updateZN (s.memWrite addr v) v)

/-- adc: add the operand byte into A through add_to_register_a. -/
def adc (s : CPU) (m : Mode) : Option CPU := do
  let addr ← getOperandAddress s m
  pure (addToRegisterA s (s.memRead addr))

/-- andA (and in the source): A gets A AND operand, through set_register_a. -/
def andA (s : CPU) (m : Mode) : Option CPU := do
  let addr ← getOperandAddress s m
  pure (setRegisterA s (s.memRead addr &&& s.register_a))

/-- asl_register_a: Carry from bit 7, A shifted left wrapping. -/
def aslRegisterA (s : CPU) : CPU :=
  let s1 := if s.register_a / 128 = 1 then setCarryFlag s else clearCarryFlag s
  setRegisterA s1 (s.register_a * 2 % 256)

/-- asl on memory: Carry from bit 7, shifted value written back. -/
def asl (s : CPU) (m : Mode) : Option CPU := do
  let addr ← getOperandAddress s m
  let v := s.memRead addr
  let s1 := if v / 128 = 1 then setCarryFlag s else clearCarryFlag s
  let v1 := v * 2 % 256
  pure (updateZN (s1.memWrite addr v1) v1)

/-- bit: Zero from A AND operand, Negative from bit 7, Overflow from bit 6
of the operand. -/
def bitOp (s : CPU) (m : Mode) : Option CPU := do
  let addr ← getOperandAddress s m
  let v := s.memRead addr
  let p1 := if s.register_a &&& v = 0 then insertFlag s.register_p ZERO
            else removeFlag s.register_p ZERO
  let p2 := setFlag p1 NEGATIV (v &&& 128 > 0)
  let p3 := setFlag p2 OVERFLOW (v &&& 64 > 0)
  pure { s with register_p := p3 }

/-- dec: wrapping decrement of the operand byte, write back, update flags. -/
def dec (s : CPU) (m : Mode) : Option CPU := do
  let addr ← getOperandAddress s m
  let v := (s.memRead addr + 255) % 256
  pure (updateZN (s.memWrite addr v) v)

/-- eor: A gets A XOR operand, flags from update_zero_and_negative_flags. -/
def eor (s : CPU) (m : Mode) : Option CPU := do
  let addr ← getOperandAddress s m
  let a1 := s.register_a ^^^ s.memRead addr
  pure (updateZN { s with register_a := a1 } a1)

/-- lsr_register_a: Carry set when bit 0 is 1, cleared otherwise; A
shifted right. -/
def lsrRegisterA (s : CPU) : CPU :=
  let s1 := if s.register_a &&& 1 = 1 then setCarryFlag s else clearCarryFlag s
  setRegisterA s1 (s.register_a / 2)

/-- lsr on memory: the source sets Carry when bit 0 is 1 but has no else
branch, so Carry is left unchanged when bit 0 is 0. -/
def lsr (s : CPU) (m : Mode) : Option CPU := do
  let addr ← getOperandAddress s m
  let v := s.memRead addr
  let s1 := if v &&& 1 = 1 then setCarryFlag s else s
  let v1 := v / 2
  pure (updateZN (s1.memWrite addr v1) v1)

/-- ora: A gets operand OR A, through set_register_a. -/
def ora (s : CPU) (m : Mode) : Option CPU := do
  let addr ← getOperandAddress s m
  pure (setRegisterA s (s.memRead addr ||| s.register_a))

/-- pha: push A. -/
def pha (s : CPU) : CPU :=
  stackPush s s.register_a

/-- php: push P with Break and Break2 forced set. -/
def php (s : CPU) : CPU :=
  stackPush s (insertFlag (insertFlag s.register_p BREAK) BREAK2)

/-- pla: pop into A through set_register_a. -/
def pla (s : CPU) : CPU :=
  setRegisterA (stackPop s).2 (stackPop s).1

/-- plp: pop into P, then clear Break and clear Break2. -/
def plp (s : CPU) : CPU :=
  { (stackPop s).2 with
      register_p := removeFlag (removeFlag (stackPop s).1 BREAK) BREAK2 }

/-- rol_register_a: new Carry from bit 7, shift left, bit 0 from old
Carry. -/
def rolRegisterA (s : CPU) : CPU :=
  let oldCarry := containsFlag s.register_p CARRY
  let s1 := if s.register_a / 128 = 1 then setCarryFlag s else clearCarryFlag s
  let a1 := s.register_a * 2 % 256
  let a2 := if oldCarry then a1 ||| 1 else a1
  updateZN { s1 with register_a := a2 } a2

/-- rol on memory. -/
def rol (s : CPU) (m : Mode) : Option CPU := do
  let addr ← getOperandAddress s m
  let v := s.memRead addr
  let oldCarry := containsFlag s.register_p CARRY
  let s1 := if v / 128 = 1 then setCarryFlag s else clearCarryFlag s
  let v1 := v * 2 % 256
  let v2 := if oldCarry then v1 ||| 1 else v1
  pure (updateZN (s1.memWrite addr v2) v2)

/-- ror on memory. -/
def ror (s : CPU) (m : Mode) : Option CPU := do
  let addr ← getOperandAddress s m
  let v := s.memRead addr
  let oldCarry := containsFlag s.register_p CARRY
  let s1 := if v &&& 1 = 1 then setCarryFlag s else clearCarryFlag s
  let v1 := v / 2
  let v2 := if oldCarry then v1 ||| 128 else v1
  pure (updateZN (s1.memWrite addr v2) v2)

/-- ror_register_a: new Carry from bit 0, shift right, bit 7 from old
Carry. -/
def rorRegisterA (s : CPU) : CPU :=
  let oldCarry := containsFlag s.register_p CARRY
  let s1 := if s.register_a &&& 1 = 1 then setCarryFlag s else clearCarryFlag s
  let a1 := s.register_a / 2
  let a2 := if oldCarry then a1 ||| 128 else a1
  updateZN { s1 with register_a := a2 } a2

/-- sbc: add the bitwise complement of the operand byte, which is the
wrapping negation minus one of the source, into A. -/
def sbc (s : CPU) (m : Mode) : Option CPU := do
  let addr ← getOperandAddress s m
  pure (addToRegisterA s (255 - s.memRead addr))

/-- sta: store A. -/
def sta (s : CPU) (m : Mode) : Option CPU := do
  let addr ← getOperandAddress s m
  pure (s.memWrite addr s.register_a)

/-- stx: store X. -/
def stx (s : CPU) (m : Mode) : Option CPU := do
  let addr ← getOperandAddress s m
  pure (s.memWrite addr s.register_x)

/-- sty: store Y. -/
def sty (s : CPU) (m : Mode) : Option CPU := do
  let addr ← getOperandAddress s m
  pure (s.memWrite addr s.register_y)

/-- inx: wrapping increment of X. -/
def inx (s : CPU) : CPU :=
  updateZN { s with register_x := (s.register_x + 1) % 256 } ((s.register_x + 1) % 256)

/-- iny: wrapping increment of Y. -/
def iny (s : CPU) : CPU :=
  updateZN { s with register_y := (s.register_y + 1) % 256 } ((s.register_y + 1) % 256)

/-- dex: wrapping decrement of X. -/
def dex (s : CPU) : CPU :=
  updateZN { s with register_x := (s.register_x + 255) % 256 } ((s.register_x + 255) % 256)

/-- dey: wrapping decrement of Y. -/
def dey (s : CPU) : CPU :=
  updateZN { s with register_y := (s.register_y + 255) % 256 } ((s.register_y + 255) % 256)

/-- compare: Carry when the register is at least the operand, Zero and
Negative from the wrapping difference. -/
def compare (s : CPU) (m : Mode) (compareWith : Nat) : Option CPU := do
  let addr ← getOperandAddress s m
  let v := s.memRead addr
  let s1 := if compareWith ≥ v
            then { s with register_p := insertFlag s.register_p CARRY }
            else { s with register_p := removeFlag s.register_p CARRY }
  pure (updateZN s1 ((compareWith + 256 - v) % 256))

/-- lda: load the operand byte into A through set_register_a. -/
def lda (s : CPU) (m : Mode) : Option CPU := do
  let addr ← getOperandAddress s m
  pure (setRegisterA s (s.memRead addr))

/-- ldx: load the operand byte into X. -/
def ldx (s : CPU) (m : Mode) : Option CPU := do
  let addr ← getOperandAddress s m
  let v := s.memRead addr
  pure (updateZN { s with register_x := v } v)

/-- ldy: load the operand byte into Y. -/
def ldy (s : CPU) (m : Mode) : Option CPU := do
  let addr ← getOperandAddress s m
  let v := s.memRead addr
  pure (updateZN { s with register_y := v } v)

/-- branch: when the condition holds, PC gets PC plus one plus the
sign-extended displacement byte, all wrapping mod 65536. -/
def branch (s : CPU) (condition : Bool) : CPU :=
  if condition then
    let jump := s.memRead s.program_counter
    let ext := if 128 ≤ jump then jump + 0xFF00 else jump
    { s with program_counter := (s.program_counter + 1 + ext) % 65536 }
  else s

/-- Opcode descriptor: instruction length in bytes and addressing mode. -/
structure OpInfo where
  bytes : Nat
  mode : Mode
deriving DecidableEq

/-- Modelled from the spec: opcodes.rs (the static opcode table) is not
under src/. Per spec sections 3 and 4.1, the table maps each of the 151
documented opcode bytes to a descriptor with instruction length in bytes
and addressing mode; lengths and modes follow the documented 6502 table
(1 byte for implied and accumulator forms, 2 for immediate, zero-page and
indirect-indexed forms, 3 for absolute forms; JMP, JSR and branches carry
their operands inline and are dispatched without get_operand_address).
Unknown opcode bytes are absent, which the interpreter treats as fatal. -/
def decode (code : Nat) : Option OpInfo :=
  match code with
  | 0x00 => some ⟨1, .noneAddressing⟩
  | 0x69 => some ⟨2, .immediate⟩
  | 0x65 => some ⟨2, .zeroPage⟩
  | 0x75 => some ⟨2, .zeroPageX⟩
  | 0x6d => some ⟨3, .absolute⟩
  | 0x7d => some ⟨3, .absoluteX⟩
  | 0x79 => some ⟨3, .absoluteY⟩
  | 0x61 => some ⟨2, .indirectX⟩
  | 0x71 => some ⟨2, .indirectY⟩
  | 0x29 => some ⟨2, .immediate⟩
  | 0x25 => some ⟨2, .zeroPage⟩
  | 0x35 => some ⟨2, .zeroPageX⟩
  | 0x2d => some ⟨3, .absolute⟩
  | 0x3d => some ⟨3, .absoluteX⟩
  | 0x39 => some ⟨3, .absoluteY⟩
  | 0x21 => some ⟨2, .indirectX⟩
  | 0x31 => some ⟨2, .indirectY⟩
  | 0x0a => some ⟨1, .noneAddressing⟩
  | 0x06 => some ⟨2, .zeroPage⟩
  | 0x16 => some ⟨2, .zeroPageX⟩
  | 0x0e => some ⟨3, .absolute⟩
  | 0x1e => some ⟨3, .absoluteX⟩
  | 0x90 => some ⟨2, .noneAddressing⟩
  | 0xb0 => some ⟨2, .noneAddressing⟩
  | 0xf0 => some ⟨2, .noneAddressing⟩
  | 0x24 => some ⟨2, .zeroPage⟩
  | 0x2c => some ⟨3, .absolute⟩
  | 0x30 => some ⟨2, .noneAddressing⟩
  | 0xd0 => some ⟨2, .noneAddressing⟩
  | 0x10 => some ⟨2, .noneAddressing⟩
  | 0x50 => some ⟨2, .noneAddressing⟩
  | 0x70 => some ⟨2, .noneAddressing⟩
  | 0x18 => some ⟨1, .noneAddressing⟩
  | 0xd8 => some ⟨1, .noneAddressing⟩
  | 0x58 => some ⟨1, .noneAddressing⟩
  | 0xb8 => some ⟨1, .noneAddressing⟩
  | 0xc9 => some ⟨2, .immediate⟩
  | 0xc5 => some ⟨2, .zeroPage⟩
  | 0xd5 => some ⟨2, .zeroPageX⟩
  | 0xcd => some ⟨3, .absolute⟩
  | 0xdd => some ⟨3, .absoluteX⟩
  | 0xd9 => some ⟨3, .absoluteY⟩
  | 0xc1 => some ⟨2, .indirectX⟩
  | 0xd1 => some ⟨2, .indirectY⟩
  | 0xe0 => some ⟨2, .immediate⟩
  | 0xe4 => some ⟨2, .zeroPage⟩
  | 0xec => some ⟨3, .absolute⟩
  | 0xc0 => some ⟨2, .immediate⟩
  | 0xc4 => some ⟨2, .zeroPage⟩
  | 0xcc => some ⟨3, .absolute⟩
  | 0xc6 => some ⟨2, .zeroPage⟩
  | 0xd6 => some ⟨2, .zeroPageX⟩
  | 0xce => some ⟨3, .absolute⟩
  | 0xde => some ⟨3, .absoluteX⟩
  | 0xca => some ⟨1, .noneAddressing⟩
  | 0x88 => some ⟨1, .noneAddressing⟩
  | 0x49 => some ⟨2, .immediate⟩
  | 0x45 => some ⟨2, .zeroPage⟩
  | 0x55 => some ⟨2, .zeroPageX⟩
  | 0x4d => some ⟨3, .absolute⟩
  | 0x5d => some ⟨3, .absoluteX⟩
  | 0x59 => some ⟨3, .absoluteY⟩
  | 0x41 => some ⟨2, .indirectX⟩
  | 0x51 => some ⟨2, .indirectY⟩
  | 0xe6 => some ⟨2, .zeroPage⟩
  | 0xf6 => some ⟨2, .zeroPageX⟩
  | 0xee => some ⟨3, .absolute⟩
  | 0xfe => some ⟨3, .absoluteX⟩
  | 0xe8 => some ⟨1, .noneAddressing⟩
  | 0xc8 => some ⟨1, .noneAddressing⟩
  | 0x4c => some ⟨3, .noneAddressing⟩
  | 0x6c => some ⟨3, .noneAddressing⟩
  | 0x20 => some ⟨3, .noneAddressing⟩
  | 0xa9 => some ⟨2, .immediate⟩
  | 0xa5 => some ⟨2, .zeroPage⟩
  | 0xb5 => some ⟨2, .zeroPageX⟩
  | 0xad => some ⟨3, .absolute⟩
  | 0xbd => some ⟨3, .absoluteX⟩
  | 0xb9 => some ⟨3, .absoluteY⟩
  | 0xa1 => some ⟨2, .indirectX⟩
  | 0xb1 => some ⟨2, .indirectY⟩
  | 0xa2 => some ⟨2, .immediate⟩
  | 0xa6 => some ⟨2, .zeroPage⟩
  | 0xb6 => some ⟨2, .zeroPageY⟩
  | 0xae => some ⟨3, .absolute⟩
  | 0xbe => some ⟨3, .absoluteY⟩
  | 0xa0 => some ⟨2, .immediate⟩
  | 0xa4 => some ⟨2, .zeroPage⟩
  | 0xb4 => some ⟨2, .zeroPageX⟩
  | 0xac => some ⟨3, .absolute⟩
  | 0xbc => some ⟨3, .absoluteX⟩
  | 0x4a => some ⟨1, .noneAddressing⟩
  | 0x46 => some ⟨2, .zeroPage⟩
  | 0x56 => some ⟨2, .zeroPageX⟩
  | 0x4e => some ⟨3, .absolute⟩
  | 0x5e => some ⟨3, .absoluteX⟩
  | 0xea => some ⟨1, .noneAddressing⟩
  | 0x09 => some ⟨2, .immediate⟩
  | 0x05 => some ⟨2, .zeroPage⟩
  | 0x15 => some ⟨2, .zeroPageX⟩
  | 0x0d => some ⟨3, .absolute⟩
  | 0x1d => some ⟨3, .absoluteX⟩
  | 0x19 => some ⟨3, .absoluteY⟩
  | 0x01 => some ⟨2, .indirectX⟩
  | 0x11 => some ⟨2, .indirectY⟩
  | 0x48 => some ⟨1, .noneAddressing⟩
  | 0x08 => some ⟨1, .noneAddressing⟩
  | 0x68 => some ⟨1, .noneAddressing⟩
  | 0x28 => some ⟨1, .noneAddressing⟩
  | 0x2a => some ⟨1, .noneAddressing⟩
  | 0x26 => some ⟨2, .zeroPage⟩
  | 0x36 => some ⟨2, .zeroPageX⟩
  | 0x2e => some ⟨3, .absolute⟩
  | 0x3e => some ⟨3, .absoluteX⟩
  | 0x6a => some ⟨1, .noneAddressing⟩
  | 0x66 => some ⟨2, .zeroPage⟩
  | 0x76 => some ⟨2, .zeroPageX⟩
  | 0x6e => some ⟨3, .absolute⟩
  | 0x7e => some ⟨3, .absoluteX⟩
  | 0x40 => some ⟨1, .noneAddressing⟩
  | 0x60 => some ⟨1, .noneAddressing⟩
  | 0xe9 => some ⟨2, .immediate⟩
  | 0xe5 => some ⟨2, .zeroPage⟩
  | 0xf5 => some ⟨2, .zeroPageX⟩
  | 0xed => some ⟨3, .absolute⟩
  | 0xfd => some ⟨3, .absoluteX⟩
  | 0xf9 => some ⟨3, .absoluteY⟩
  | 0xe1 => some ⟨2, .indirectX⟩
  | 0xf1 => some ⟨2, .indirectY⟩
  | 0x38 => some ⟨1, .noneAddressing⟩
  | 0xf8 => some ⟨1, .noneAddressing⟩
  | 0x78 => some ⟨1, .noneAddressing⟩
  | 0x85 => some ⟨2, .zeroPage⟩
  | 0x95 => some ⟨2, .zeroPageX⟩
  | 0x8d => some ⟨3, .absolute⟩
  | 0x9d => some ⟨3, .absoluteX⟩
  | 0x99 => some ⟨3, .absoluteY⟩
  | 0x81 => some ⟨2, .indirectX⟩
  | 0x91 => some ⟨2, .indirectY⟩
  | 0x86 => some ⟨2, .zeroPage⟩
  | 0x96 => some ⟨2, .zeroPageY⟩
  | 0x8e => some ⟨3, .absolute⟩
  | 0x84 => some ⟨2, .zeroPage⟩
  | 0x94 => some ⟨2, .zeroPageX⟩
  | 0x8c => some ⟨3, .absolute⟩
  | 0xaa => some ⟨1, .noneAddressing⟩
  | 0xa8 => some ⟨1, .noneAddressing⟩
  | 0xba => some ⟨1, .noneAddressing⟩
  | 0x8a => some ⟨1, .noneAddressing⟩
  | 0x9a => some ⟨1, .noneAddressing⟩
  | 0x98 => some ⟨1, .noneAddressing⟩
  | _ => none

/-- Dispatch arms of the run_with_callback match, one constructor per arm
of the source match over the opcode byte (BRK is handled separately by
step, as the source arm returns from the loop). -/
inductive Mn where
  | lda | cld | cli | clv | clc | sec | sei | sed
  | pha | pla | php | plp
  | adc | sbc | andA | eor | ora
  | lsrA | lsr | aslA | asl | rolA | rol | rorA | ror
  | inc | inx | iny | dec | dex | dey
  | cmp | cpy | cpx
  | jmpAbs | jmpInd | jsr | rts | rti
  | bne | bvs | bvc | bpl | bmi | beq | bcs | bcc
  | bit | sta | stx | sty | ldx | ldy | nop
  | tax | tay | tsx | txa | txs | tya
deriving DecidableEq

/-- Arm selection of the run_with_callback match: the opcode byte lists are
transcribed from the source match arms; bytes covered by no arm fall to the
todo panic (none). -/
def decodeMn (code : Nat) : Option Mn :=
  match code with
  | 0xa9 | 0xa5 | 0xb5 | 0xad | 0xbd | 0xb9 | 0xa1 | 0xb1 => some .lda
  | 0xd8 => some .cld
  | 0x58 => some .cli
  | 0xb8 => some .clv
  | 0x18 => some .clc
  | 0x38 => some .sec
  | 0x78 => some .sei
  | 0xf8 => some .sed
  | 0x48 => some .pha
  | 0x68 => some .pla
  | 0x08 => some .php
  | 0x28 => some .plp
  | 0x69 | 0x65 | 0x75 | 0x6d | 0x7d | 0x79 | 0x61 | 0x71 => some .adc
  | 0xe9 | 0xe5 | 0xf5 | 0xed | 0xfd | 0xf9 | 0xe1 | 0xf1 => some .sbc
  | 0x29 | 0x25 | 0x35 | 0x2d | 0x3d | 0x39 | 0x21 | 0x31 => some .andA
  | 0x49 | 0x45 | 0x55 | 0x4d | 0x5d | 0x59 | 0x41 | 0x51 => some .eor
  | 0x09 | 0x05 | 0x15 | 0x0d | 0x1d | 0x19 | 0x01 | 0x11 => some .ora
  | 0x4a => some .lsrA
  | 0x46 | 0x56 | 0x4e | 0x5e => some .lsr
  | 0x0a => some .aslA
  | 0x06 | 0x16 | 0x0e | 0x1e => some .asl
  | 0x2a => some .rolA
  | 0x26 | 0x36 | 0x2e | 0x3e => some .rol
  | 0x6a => some .rorA
  | 0x66 | 0x76 | 0x6e | 0x7e => some .ror
  | 0xe6 | 0xf6 | 0xee | 0xfe => some .inc
  | 0xe8 => some .inx
  | 0xc8 => some .iny
  | 0xc6 | 0xd6 | 0xce | 0xde => some .dec
  | 0xca => some .dex
  | 0x88 => some .dey
  | 0xc9 | 0xc5 | 0xd5 | 0xcd | 0xdd | 0xd9 | 0xc1 | 0xd1 => some .cmp
  | 0xc0 | 0xc4 | 0xcc => some .cpy
  | 0xe0 | 0xe4 | 0xec => some .cpx
  | 0x4c => some .jmpAbs
  | 0x6c => some .jmpInd
  | 0x20 => some .jsr
  | 0x60 => some .rts
  | 0x40 => some .rti
  | 0xd0 => some .bne
  | 0x70 => some .bvs
  | 0x50 => some .bvc
  | 0x10 => some .bpl
  | 0x30 => some .bmi
  | 0xf0 => some .beq
  | 0xb0 => some .bcs
  | 0x90 => some .bcc
  | 0x24 | 0x2c => some .bit
  | 0x85 | 0x95 | 0x8d | 0x9d | 0x99 | 0x81 | 0x91 => some .sta
  | 0x86 | 0x96 | 0x8e => some .stx
  | 0x84 | 0x94 | 0x8c => some .sty
  | 0xa2 | 0xa6 | 0xb6 | 0xae | 0xbe => some .ldx
  | 0xa0 | 0xa4 | 0xb4 | 0xac | 0xbc => some .ldy
  | 0xea => some .nop
  | 0xaa => some .tax
  | 0xa8 => some .tay
  | 0xba => some .tsx
  | 0x8a => some .txa
  | 0x9a => some .txs
  | 0x98 => some .tya
  | _ => none

/-- Body of the selected match arm, executed on the post-fetch state. -/
def execMn (mn : Mn) (m : Mode) (s : CPU) : Option CPU :=
  match mn with
  | .lda => lda s m
  | .cld => some { s with register_p := removeFlag s.register_p DECIMAL_MODE }
  | .cli => some { s with register_p := removeFlag s.register_p INTERRUPT_DISABLE }
  | .clv => some { s with register_p := removeFlag s.register_p OVERFLOW }
  | .clc => some (clearCarryFlag s)
  | .sec => some (setCarryFlag s)
  | .sei => some { s with register_p := insertFlag s.register_p INTERRUPT_DISABLE }
  | .sed => some { s with register_p := insertFlag s.register_p DECIMAL_MODE }
  | .pha => some (pha s)
  | .pla => some (pla s)
  | .php => some (php s)
  | .plp => some (plp s)
  | .adc => adc s m
  | .sbc => sbc s m
  | .andA => andA s m
  | .eor => eor s m
  | .ora => ora s m
  | .lsrA => some (lsrRegisterA s)
  | .lsr => lsr s m
  | .aslA => some (aslRegisterA s)
  | .asl => asl s m
  | .rolA => some (rolRegisterA s)
  | .rol => rol s m
  | .rorA => some (rorRegisterA s)
  | .ror => ror s m
  | .inc => inc s m
  | .inx => some (inx s)
  | .iny => some (iny s)
  | .dec => dec s m
  | .dex => some (dex s)
  | .dey => some (dey s)
  | .cmp => compare s m s.register_a
  | .cpy => compare s m s.register_y
  | .cpx => compare s m s.register_x
  | .jmpAbs => do
      let memAddress ← memReadU16 s s.program_counter
      pure { s with program_counter := memAddress }
  | .jmpInd => do
      let memAddress ← memReadU16 s s.program_counter
      if memAddress &&& 0x00FF = 0x00FF then
        let lo := s.memRead memAddress
        let hi := s.memRead (memAddress &&& 0xFF00)
        pure { s with program_counter := 256 * hi + lo }
      else do
        let indirectRef ← memReadU16 s memAddress
        pure { s with program_counter := indirectRef }
  | .jsr => do
      let ret ← chk16 (s.program_counter + 2)
      let s1 := stackPushU16 s (ret - 1)
      let target ← memReadU16 s1 s1.program_counter
      pure { s1 with program_counter := target }
  | .rts => do
      let pc1 ← chk16 ((stackPopU16 s).1 + 1)
      pure { (stackPopU16 s).2 with program_counter := pc1 }
  | .rti => some (
      let s1 : CPU :=
        { (stackPop s).2 with
            register_p := insertFlag (removeFlag (stackPop s).1 BREAK) BREAK2 }
      { (stackPopU16 s1).2 with program_counter := (stackPopU16 s1).1 })
  | .bne => some (branch s (!(containsFlag s.register_p ZERO)))
  | .bvs => some (branch s (containsFlag s.register_p OVERFLOW))
  | .bvc => some (branch s (!(containsFlag s.register_p OVERFLOW)))
  | .bpl => some (branch s (!(containsFlag s.register_p NEGATIV)))
  | .bmi => some (branch s (containsFlag s.register_p NEGATIV))
  | .beq => some (branch s (containsFlag s.register_p ZERO))
  | .bcs => some (branch s (containsFlag s.register_p CARRY))
  | .bcc => some (branch s (!(containsFlag s.register_p CARRY)))
  | .bit => bitOp s m
  | .sta => sta s m
  | .stx => stx s m
  | .sty => sty s m
  | .ldx => ldx s m
  | .ldy => ldy s m
  | .nop => some s
  | .tax => some (tax s)
  | .tay => some (tay s)
  | .tsx => some (tsx s)
  | .txa => some (txa s)
  | .txs => some (txs s)
  | .tya => some (tya s)

/-- Dispatch of run_with_callback: select the match arm for the opcode byte
and run its body. -/
def exec (code : Nat) (m : Mode) (s : CPU) : Option CPU := do
  let mn ← decodeMn code
  execMn mn m s

/-- One iteration of the run_with_callback loop: fetch the opcode at PC,
increment PC with the checked u16 addition, remember the post-fetch PC,
look the opcode up (a missing entry is the fatal unknown-opcode path),
return on BRK, otherwise dispatch, and auto-advance PC by bytes minus one
when the dispatch left PC at its post-fetch value. The Bool is true when
the instruction was BRK and the loop returns. -/
def step (s : CPU) : Option (Bool × CPU) := do
  let code := s.memRead s.program_counter
  let pc1 ← chk16 (s.program_counter + 1)
  let s1 : CPU := { s with program_counter := pc1 }
  let prev := s1.program_counter
  let op ← decode code
  if code = 0 then
    pure (true, s1)
  else do
    let s2 ← exec code op.mode s1
    if s2.program_counter = prev then do
      let pc2 ← chk16 (s2.program_counter + (op.bytes - 1))
      pure (false, { s2 with program_counter := pc2 })
    else
      pure (false, s2)

/-- Fuel-bounded run_with_callback: iterate step until BRK. Returns the
final CPU, the number of executed instructions (the final BRK included),
and the number of callback invocations; the source invokes the callback
at the end of each loop iteration, a point the BRK arm returns before. -/
def runCb : Nat → CPU → Option (CPU × Nat × Nat)
  | 0, _ => none
  | fuel + 1, s => do
    let (halted, s1) ← step s
    if halted then
      pure (s1, 1, 0)
    else do
      let (r, n, k) ← runCb fuel s1
      pure (r, n + 1, k + 1)

/-- Signed (twos-complement) reading of a byte value. -/
def toSigned (v : Nat) : Int :=
  if v < 128 then (v : Int) else (v : Int) - 256

/-- Signed overflow of adding two bytes and a carry: the true signed sum
leaves the representable range of a byte. -/
def signedAddOverflows (a b c : Nat) : Prop :=
  toSigned a + toSigned b + (c : Int) < -128 ∨ 127 < toSigned a + toSigned b + (c : Int)

instance (a b c : Nat) : Decidable (signedAddOverflows a b c) := by
  unfold signedAddOverflows; infer_instance

/-- Bus fields other than memory: cycle counter, PPU cycle counter, NMI
latch. The run loop should tick the first two and poll the last. -/
def busMeta (b : Bus) : Nat × Nat × Bool :=
  (b.cycles, b.ppuCycles, b.nmiPending)

/-- Match arms that assign the program counter explicitly (the
control-flow instructions of the claim). -/
def Mn.writesPC (mn : Mn) : Bool :=
  match mn with
  | .jmpAbs | .jmpInd | .jsr | .rts | .rti
  | .bne | .bvs | .bvc | .bpl | .bmi | .beq | .bcs | .bcc => true
  | _ => false

/-- Finite memory image: bytes from an association list, zero elsewhere. -/
def memOf (l : List (Nat × Nat)) : Nat → Nat := fun a =>
  ((l.find? (fun p => p.1 = a)).map Prod.snd).getD 0

/-- CPU in the post-reset configuration over a given memory image, with PC
at 0x0600 where load places programs. -/
def initCPU (mem : Nat → Nat) : CPU :=
  { register_a := 0, register_x := 0, register_y := 0,
    register_p := 0x24, program_counter := 0x0600, stack_pointer := 0xFD,
    bus := { mem := mem, cycles := 0, ppuCycles := 0, nmiPending := false } }

/-! Infrastructure lemmas: the checked additions, and preservation of the
non-memory bus fields and of the program counter by the instruction
helpers. -/

theorem chk16_eq_some {x y : Nat} (h : chk16 x = some y) : y = x ∧ x < 65536 := by
  unfold chk16 at h
  split at h
  · exact ⟨(Option.some.inj h).symm, by assumption⟩
  · exact absurd h (by simp)

theorem chk16_of_lt {x : Nat} (h : x < 65536) : chk16 x = some x := by
  unfold chk16
  exact if_pos h

@[simp] theorem busWrite_cycles (b : Bus) (a v : Nat) :
    (busWrite b a v).cycles = b.cycles := rfl

@[simp] theorem busWrite_ppuCycles (b : Bus) (a v : Nat) :
    (busWrite b a v).ppuCycles = b.ppuCycles := rfl

@[simp] theorem busWrite_nmiPending (b : Bus) (a v : Nat) :
    (busWrite b a v).nmiPending = b.nmiPending := rfl

@[simp] theorem memWrite_bus_cycles (s : CPU) (a v : Nat) :
    (CPU.memWrite s a v).bus.cycles = s.bus.cycles := rfl

@[simp] theorem memWrite_bus_ppuCycles (s : CPU) (a v : Nat) :
    (CPU.memWrite s a v).bus.ppuCycles = s.bus.ppuCycles := rfl

@[simp] theorem memWrite_bus_nmiPending (s : CPU) (a v : Nat) :
    (CPU.memWrite s a v).bus.nmiPending = s.bus.nmiPending := rfl

@[simp] theorem memWrite_pc (s : CPU) (a v : Nat) :
    (CPU.memWrite s a v).program_counter = s.program_counter := rfl

@[simp] theorem stackPush_bus_cycles (s : CPU) (v : Nat) :
    (stackPush s v).bus.cycles = s.bus.cycles := by simp [stackPush]

@[simp] theorem stackPush_bus_ppuCycles (s : CPU) (v : Nat) :
    (stackPush s v).bus.ppuCycles = s.bus.ppuCycles := by simp [stackPush]

@[simp] theorem stackPush_bus_nmiPending (s : CPU) (v : Nat) :
    (stackPush s v).bus.nmiPending = s.bus.nmiPending := by simp [stackPush]

@[simp] theorem stackPush_pc (s : CPU) (v : Nat) :
    (stackPush s v).program_counter = s.program_counter := by simp [stackPush]

@[simp] theorem stackPushU16_bus_cycles (s : CPU) (v : Nat) :
    (stackPushU16 s v).bus.cycles = s.bus.cycles := by simp [stackPushU16]

@[simp] theorem stackPushU16_bus_ppuCycles (s : CPU) (v : Nat) :
    (stackPushU16 s v).bus.ppuCycles = s.bus.ppuCycles := by simp [stackPushU16]

@[simp] theorem stackPushU16_bus_nmiPending (s : CPU) (v : Nat) :
    (stackPushU16 s v).bus.nmiPending = s.bus.nmiPending := by simp [stackPushU16]

@[simp] theorem stackPushU16_pc (s : CPU) (v : Nat) :
    (stackPushU16 s v).program_counter = s.program_counter := by simp [stackPushU16]

@[simp] theorem stackPop_bus (s : CPU) : (stackPop s).2.bus = s.bus := rfl

@[simp] theorem stackPop_pc (s : CPU) :
    (stackPop s).2.program_counter = s.program_counter := rfl

@[simp] theorem stackPopU16_bus (s : CPU) : (stackPopU16 s).2.bus = s.bus := rfl

@[simp] theorem stackPopU16_pc (s : CPU) :
    (stackPopU16 s).2.program_counter = s.program_counter := rfl

@[simp] theorem updateZN_bus (s : CPU) (v : Nat) : (updateZN s v).bus = s.bus := rfl

@[simp] theorem updateZN_pc (s : CPU) (v : Nat) :
    (updateZN s v).program_counter = s.program_counter := rfl

@[simp] theorem setRegisterA_bus (s : CPU) (v : Nat) :
    (setRegisterA s v).bus = s.bus := rfl

@[simp] theorem setRegisterA_pc (s : CPU) (v : Nat) :
    (setRegisterA s v).program_counter = s.program_counter := rfl

@[simp] theorem setCarryFlag_bus (s : CPU) : (setCarryFlag s).bus = s.bus := rfl

@[simp] theorem setCarryFlag_pc (s : CPU) :
    (setCarryFlag s).program_counter = s.program_counter := rfl

@[simp] theorem clearCarryFlag_bus (s : CPU) : (clearCarryFlag s).bus = s.bus := rfl

@[simp] theorem clearCarryFlag_pc (s : CPU) :
    (clearCarryFlag s).program_counter = s.program_counter := rfl

@[simp] theorem addToRegisterA_bus (s : CPU) (v : Nat) :
    (addToRegisterA s v).bus = s.bus := rfl

@[simp] theorem addToRegisterA_pc (s : CPU) (v : Nat) :
    (addToRegisterA s v).program_counter = s.program_counter := rfl

@[simp] theorem branch_bus (s : CPU) (c : Bool) : (branch s c).bus = s.bus := by
  unfold branch; split <;> rfl

/-- Preservation target for the run loop: the cycle counters and the NMI
latch of the bus are untouched. -/
def presBus (s r : CPU) : Prop :=
  r.bus.cycles = s.bus.cycles ∧ r.bus.ppuCycles = s.bus.ppuCycles ∧
    r.bus.nmiPending = s.bus.nmiPending

theorem presBus_refl (s : CPU) : presBus s s := ⟨rfl, rfl, rfl⟩

theorem presBus_trans {s t r : CPU} (h1 : presBus s t) (h2 : presBus t r) :
    presBus s r :=
  ⟨h2.1.trans h1.1, h2.2.1.trans h1.2.1, h2.2.2.trans h1.2.2⟩

theorem lda_pres {s : CPU} {m : Mode} {r : CPU} (h : lda s m = some r) :
    presBus s r ∧ r.program_counter = s.program_counter := by
  simp only [lda, Option.bind_eq_bind', Option.bind_eq_some', Option.pure_def,
    Option.some_inj] at h
  obtain ⟨a, -, rfl⟩ := h
  simp [presBus]

theorem ldx_pres {s : CPU} {m : Mode} {r : CPU} (h : ldx s m = some r) :
    presBus s r ∧ r.program_counter = s.program_counter := by
  simp only [ldx, Option.bind_eq_bind', Option.bind_eq_some', Option.pure_def,
    Option.some_inj] at h
  obtain ⟨a, -, rfl⟩ := h
  simp [presBus]

theorem ldy_pres {s : CPU} {m : Mode} {r : CPU} (h : ldy s m = some r) :
    presBus s r ∧ r.program_counter = s.program_counter := by
  simp only [ldy, Option.bind_eq_bind', Option.bind_eq_some', Option.pure_def,
    Option.some_inj] at h
  obtain ⟨a, -, rfl⟩ := h
  simp [presBus]

theorem sta_pres {s : CPU} {m : Mode} {r : CPU} (h : sta s m = some r) :
    presBus s r ∧ r.program_counter = s.program_counter := by
  simp only [sta, Option.bind_eq_bind', Option.bind_eq_some', Option.pure_def,
    Option.some_inj] at h
  obtain ⟨a, -, rfl⟩ := h
  simp [presBus]

theorem stx_pres {s : CPU} {m : Mode} {r : CPU} (h : stx s m = some r) :
    presBus s r ∧ r.program_counter = s.program_counter := by
  simp only [stx, Option.bind_eq_bind', Option.bind_eq_some', Option.pure_def,
    Option.some_inj] at h
  obtain ⟨a, -, rfl⟩ := h
  simp [presBus]

theorem sty_pres {s : CPU} {m : Mode} {r : CPU} (h : sty s m = some r) :
    presBus s r ∧ r.program_counter = s.program_counter := by
  simp only [sty, Option.bind_eq_bind', Option.bind_eq_some', Option.pure_def,
    Option.some_inj] at h
  obtain ⟨a, -, rfl⟩ := h
  simp [presBus]

theorem adc_pres {s : CPU} {m : Mode} {r : CPU} (h : adc s m = some r) :
    presBus s r ∧ r.program_counter = s.program_counter := by
  simp only [adc, Option.bind_eq_bind', Option.bind_eq_some', Option.pure_def,
    Option.some_inj] at h
  obtain ⟨a, -, rfl⟩ := h
  simp [presBus]

theorem sbc_pres {s : CPU} {m : Mode} {r : CPU} (h : sbc s m = some r) :
    presBus s r ∧ r.program_counter = s.program_counter := by
  simp only [sbc, Option.bind_eq_bind', Option.bind_eq_some', Option.pure_def,
    Option.some_inj] at h
  obtain ⟨a, -, rfl⟩ := h
  simp [presBus]

theorem andA_pres {s : CPU} {m : Mode} {r : CPU} (h : andA s m = some r) :
    presBus s r ∧ r.program_counter = s.program_counter := by
  simp only [andA, Option.bind_eq_bind', Option.bind_eq_some', Option.pure_def,
    Option.some_inj] at h
  obtain ⟨a, -, rfl⟩ := h
  simp [presBus]

theorem eor_pres {s : CPU} {m : Mode} {r : CPU} (h : eor s m = some r) :
    presBus s r ∧ r.program_counter = s.program_counter := by
  simp only [eor, Option.bind_eq_bind', Option.bind_eq_some', Option.pure_def,
    Option.some_inj] at h
  obtain ⟨a, -, rfl⟩ := h
  simp [presBus]

theorem ora_pres {s : CPU} {m : Mode} {r : CPU} (h : ora s m = some r) :
    presBus s r ∧ r.program_counter = s.program_counter := by
  simp only [ora, Option.bind_eq_bind', Option.bind_eq_some', Option.pure_def,
    Option.some_inj] at h
  obtain ⟨a, -, rfl⟩ := h
  simp [presBus]

theorem asl_pres {s : CPU} {m : Mode} {r : CPU} (h : asl s m = some r) :
    presBus s r ∧ r.program_counter = s.program_counter := by
  simp only [asl, Option.bind_eq_bind', Option.bind_eq_some', Option.pure_def,
    Option.some_inj] at h
  obtain ⟨a, -, rfl⟩ := h
  split_ifs <;> simp [presBus]

theorem lsr_pres {s : CPU} {m : Mode} {r : CPU} (h : lsr s m = some r) :
    presBus s r ∧ r.program_counter = s.program_counter := by
  simp only [lsr, Option.bind_eq_bind', Option.bind_eq_some', Option.pure_def,
    Option.some_inj] at h
  obtain ⟨a, -, rfl⟩ := h
  split_ifs <;> simp [presBus]

theorem rol_pres {s : CPU} {m : Mode} {r : CPU} (h : rol s m = some r) :
    presBus s r ∧ r.program_counter = s.program_counter := by
  simp only [rol, Option.bind_eq_bind', Option.bind_eq_some', Option.pure_def,
    Option.some_inj] at h
  obtain ⟨a, -, rfl⟩ := h
  split_ifs <;> simp [presBus]

theorem ror_pres {s : CPU} {m : Mode} {r : CPU} (h : ror s m = some r) :
    presBus s r ∧ r.program_counter = s.program_counter := by
  simp only [ror, Option.bind_eq_bind', Option.bind_eq_some', Option.pure_def,
    Option.some_inj] at h
  obtain ⟨a, -, rfl⟩ := h
  split_ifs <;> simp [presBus]

theorem inc_pres {s : CPU} {m : Mode} {r : CPU} (h : inc s m = some r) :
    presBus s r ∧ r.program_counter = s.program_counter := by
  simp only [inc, Option.bind_eq_bind', Option.bind_eq_some', Option.pure_def,
    Option.some_inj] at h
  obtain ⟨a, -, rfl⟩ := h
  simp [presBus]

theorem dec_pres {s : CPU} {m : Mode} {r : CPU} (h : dec s m = some r) :
    presBus s r ∧ r.program_counter = s.program_counter := by
  simp only [dec, Option.bind_eq_bind', Option.bind_eq_some', Option.pure_def,
    Option.some_inj] at h
  obtain ⟨a, -, rfl⟩ := h
  simp [presBus]

theorem compare_pres {s : CPU} {m : Mode} {w : Nat} {r : CPU} (h : compare s m w = some r) :
    presBus s r ∧ r.program_counter = s.program_counter := by
  simp only [compare, Option.bind_eq_bind', Option.bind_eq_some', Option.pure_def,
    Option.some_inj] at h
  obtain ⟨a, -, rfl⟩ := h
  split_ifs <;> simp [presBus]

theorem bitOp_pres {s : CPU} {m : Mode} {r : CPU} (h : bitOp s m = some r) :
    presBus s r ∧ r.program_counter = s.program_counter := by
  simp only [bitOp, Option.bind_eq_bind', Option.bind_eq_some', Option.pure_def,
    Option.some_inj] at h
  obtain ⟨a, -, rfl⟩ := h
  simp [presBus]

theorem execMn_pres {mn : Mn} {m : Mode} {s r : CPU} (h : execMn mn m s = some r) :
    presBus s r ∧ (mn.writesPC = false → r.program_counter = s.program_counter) := by
  cases mn <;> simp only [execMn] at h
  case lda => exact ⟨(lda_pres h).1, fun _ => (lda_pres h).2⟩
  case cld => obtain rfl := Option.some.inj h; exact ⟨⟨rfl, rfl, rfl⟩, fun _ => rfl⟩
  case cli => obtain rfl := Option.some.inj h; exact ⟨⟨rfl, rfl, rfl⟩, fun _ => rfl⟩
  case clv => obtain rfl := Option.some.inj h; exact ⟨⟨rfl, rfl, rfl⟩, fun _ => rfl⟩
  case clc => obtain rfl := Option.some.inj h; exact ⟨⟨rfl, rfl, rfl⟩, fun _ => rfl⟩
  case sec => obtain rfl := Option.some.inj h; exact ⟨⟨rfl, rfl, rfl⟩, fun _ => rfl⟩
  case sei => obtain rfl := Option.some.inj h; exact ⟨⟨rfl, rfl, rfl⟩, fun _ => rfl⟩
  case sed => obtain rfl := Option.some.inj h; exact ⟨⟨rfl, rfl, rfl⟩, fun _ => rfl⟩
  case pha => obtain rfl := Option.some.inj h; exact ⟨⟨by simp [pha], by simp [pha], by simp [pha]⟩, fun _ => by simp [pha]⟩
  case pla => obtain rfl := Option.some.inj h; exact ⟨⟨by simp [pla], by simp [pla], by simp [pla]⟩, fun _ => by simp [pla]⟩
  case php => obtain rfl := Option.some.inj h; exact ⟨⟨by simp [php], by simp [php], by simp [php]⟩, fun _ => by simp [php]⟩
  case plp => obtain rfl := Option.some.inj h; exact ⟨⟨by simp [plp], by simp [plp], by simp [plp]⟩, fun _ => by simp [plp]⟩
  case adc => exact ⟨(adc_pres h).1, fun _ => (adc_pres h).2⟩
  case sbc => exact ⟨(sbc_pres h).1, fun _ => (sbc_pres h).2⟩
  case andA => exact ⟨(andA_pres h).1, fun _ => (andA_pres h).2⟩
  case eor => exact ⟨(eor_pres h).1, fun _ => (eor_pres h).2⟩
  case ora => exact ⟨(ora_pres h).1, fun _ => (ora_pres h).2⟩
  case lsrA =>
    obtain rfl := Option.some.inj h
    unfold lsrRegisterA
    split_ifs <;> exact ⟨⟨by simp, by simp, by simp⟩, fun _ => by simp⟩
  case lsr => exact ⟨(lsr_pres h).1, fun _ => (lsr_pres h).2⟩
  case aslA =>
    obtain rfl := Option.some.inj h
    unfold aslRegisterA
    split_ifs <;> exact ⟨⟨by simp, by simp, by simp⟩, fun _ => by simp⟩
  case asl => exact ⟨(asl_pres h).1, fun _ => (asl_pres h).2⟩
  case rolA =>
    obtain rfl := Option.some.inj h
    unfold rolRegisterA
    split_ifs <;> exact ⟨⟨by simp, by simp, by simp⟩, fun _ => by simp⟩
  case rol => exact ⟨(rol_pres h).1, fun _ => (rol_pres h).2⟩
  case rorA =>
    obtain rfl := Option.some.inj h
    unfold rorRegisterA
    split_ifs <;> exact ⟨⟨by simp, by simp, by simp⟩, fun _ => by simp⟩
  case ror => exact ⟨(ror_pres h).1, fun _ => (ror_pres h).2⟩
  case inc => exact ⟨(inc_pres h).1, fun _ => (inc_pres h).2⟩
  case inx => obtain rfl := Option.some.inj h; exact ⟨⟨rfl, rfl, rfl⟩, fun _ => rfl⟩
  case iny => obtain rfl := Option.some.inj h; exact ⟨⟨rfl, rfl, rfl⟩, fun _ => rfl⟩
  case dec => exact ⟨(dec_pres h).1, fun _ => (dec_pres h).2⟩
  case dex => obtain rfl := Option.some.inj h; exact ⟨⟨rfl, rfl, rfl⟩, fun _ => rfl⟩
  case dey => obtain rfl := Option.some.inj h; exact ⟨⟨rfl, rfl, rfl⟩, fun _ => rfl⟩
  case cmp => exact ⟨(compare_pres h).1, fun _ => (compare_pres h).2⟩
  case cpy => exact ⟨(compare_pres h).1, fun _ => (compare_pres h).2⟩
  case cpx => exact ⟨(compare_pres h).1, fun _ => (compare_pres h).2⟩
  case jmpAbs =>
    simp only [Option.bind_eq_bind', Option.bind_eq_some', Option.pure_def,
      Option.some_inj] at h
    obtain ⟨a, -, rfl⟩ := h
    exact ⟨⟨rfl, rfl, rfl⟩, fun hw => nomatch hw⟩
  case jmpInd =>
    simp only [Option.bind_eq_bind', Option.bind_eq_some', Option.pure_def,
      Option.some_inj] at h
    obtain ⟨a, -, h⟩ := h
    split at h
    · obtain rfl := Option.some.inj h
      exact ⟨⟨rfl, rfl, rfl⟩, fun hw => nomatch hw⟩
    · simp only [Option.bind_eq_bind', Option.bind_eq_some', Option.pure_def,
        Option.some_inj] at h
      obtain ⟨b, -, rfl⟩ := h
      exact ⟨⟨rfl, rfl, rfl⟩, fun hw => nomatch hw⟩
  case jsr =>
    simp only [Option.bind_eq_bind', Option.bind_eq_some', Option.pure_def,
      Option.some_inj] at h
    obtain ⟨a, -, b, -, rfl⟩ := h
    exact ⟨⟨by simp, by simp, by simp⟩, fun hw => nomatch hw⟩
  case rts =>
    simp only [Option.bind_eq_bind', Option.bind_eq_some', Option.pure_def,
      Option.some_inj] at h
    obtain ⟨a, -, rfl⟩ := h
    exact ⟨⟨by simp, by simp, by simp⟩, fun hw => nomatch hw⟩
  case rti =>
    obtain rfl := Option.some.inj h
    exact ⟨⟨by simp, by simp, by simp⟩, fun hw => nomatch hw⟩
  case bne =>
    obtain rfl := Option.some.inj h
    exact ⟨⟨by simp [branch_bus], by simp [branch_bus], by simp [branch_bus]⟩,
      fun hw => nomatch hw⟩
  case bvs =>
    obtain rfl := Option.some.inj h
    exact ⟨⟨by simp [branch_bus], by simp [branch_bus], by simp [branch_bus]⟩,
      fun hw => nomatch hw⟩
  case bvc =>
    obtain rfl := Option.some.inj h
    exact ⟨⟨by simp [branch_bus], by simp [branch_bus], by simp [branch_bus]⟩,
      fun hw => nomatch hw⟩
  case bpl =>
    obtain rfl := Option.some.inj h
    exact ⟨⟨by simp [branch_bus], by simp [branch_bus], by simp [branch_bus]⟩,
      fun hw => nomatch hw⟩
  case bmi =>
    obtain rfl := Option.some.inj h
    exact ⟨⟨by simp [branch_bus], by simp [branch_bus], by simp [branch_bus]⟩,
      fun hw => nomatch hw⟩
  case beq =>
    obtain rfl := Option.some.inj h
    exact ⟨⟨by simp [branch_bus], by simp [branch_bus], by simp [branch_bus]⟩,
      fun hw => nomatch hw⟩
  case bcs =>
    obtain rfl := Option.some.inj h
    exact ⟨⟨by simp [branch_bus], by simp [branch_bus], by simp [branch_bus]⟩,
      fun hw => nomatch hw⟩
  case bcc =>
    obtain rfl := Option.some.inj h
    exact ⟨⟨by simp [branch_bus], by simp [branch_bus], by simp [branch_bus]⟩,
      fun hw => nomatch hw⟩
  case bit => exact ⟨(bitOp_pres h).1, fun _ => (bitOp_pres h).2⟩
  case sta => exact ⟨(sta_pres h).1, fun _ => (sta_pres h).2⟩
  case stx => exact ⟨(stx_pres h).1, fun _ => (stx_pres h).2⟩
  case sty => exact ⟨(sty_pres h).1, fun _ => (sty_pres h).2⟩
  case ldx => exact ⟨(ldx_pres h).1, fun _ => (ldx_pres h).2⟩
  case ldy => exact ⟨(ldy_pres h).1, fun _ => (ldy_pres h).2⟩
  case nop => obtain rfl := Option.some.inj h; exact ⟨⟨rfl, rfl, rfl⟩, fun _ => rfl⟩
  case tax => obtain rfl := Option.some.inj h; exact ⟨⟨rfl, rfl, rfl⟩, fun _ => rfl⟩
  case tay => obtain rfl := Option.some.inj h; exact ⟨⟨rfl, rfl, rfl⟩, fun _ => rfl⟩
  case tsx => obtain rfl := Option.some.inj h; exact ⟨⟨rfl, rfl, rfl⟩, fun _ => rfl⟩
  case txa => obtain rfl := Option.some.inj h; exact ⟨⟨rfl, rfl, rfl⟩, fun _ => rfl⟩
  case txs => obtain rfl := Option.some.inj h; exact ⟨⟨rfl, rfl, rfl⟩, fun _ => rfl⟩
  case tya => obtain rfl := Option.some.inj h; exact ⟨⟨rfl, rfl, rfl⟩, fun _ => rfl⟩

theorem exec_char {code : Nat} {m : Mode} {s r : CPU} (h : exec code m s = some r) :
    ∃ mn, decodeMn code = some mn ∧ execMn mn m s = some r := by
  simp only [exec, Option.bind_eq_bind', Option.bind_eq_some'] at h
  exact h

theorem step_halt_char {s r : CPU} (h : step s = some (true, r)) :
    s.memRead s.program_counter = 0 ∧ s.program_counter + 1 < 65536 ∧
      r = { s with program_counter := s.program_counter + 1 } := by
  simp only [step, Option.bind_eq_bind', Option.bind_eq_some', Option.pure_def,
    Option.some_inj] at h
  obtain ⟨pc1, hpc1, op, hop, h⟩ := h
  obtain ⟨rfl, hlt⟩ := chk16_eq_some hpc1
  split at h
  · obtain ⟨-, rfl⟩ := Prod.mk.injEq .. ▸ (Prod.mk.inj (Option.some.inj h))
    exact ⟨by assumption, hlt, rfl⟩
  · exfalso
    simp only [Option.bind_eq_bind', Option.bind_eq_some', Option.pure_def,
      Option.some_inj] at h
    obtain ⟨s2, -, h⟩ := h
    split at h
    · cases hc2 : chk16 (s2.program_counter + (op.bytes - 1)) with
      | none => rw [hc2] at h; simp at h
      | some pc2 =>
          rw [hc2] at h
          simp only [Option.some_bind', Option.some_inj] at h
          exact Bool.noConfusion (Prod.mk.inj h).1
    · exact Bool.noConfusion (Prod.mk.inj (Option.some.inj h)).1

theorem step_exec_char {s r : CPU} (h : step s = some (false, r)) :
    ∃ op mn s2,
      decode (s.memRead s.program_counter) = some op ∧
      decodeMn (s.memRead s.program_counter) = some mn ∧
      s.memRead s.program_counter ≠ 0 ∧
      s.program_counter + 1 < 65536 ∧
      execMn mn op.mode { s with program_counter := s.program_counter + 1 } = some s2 ∧
      ((s2.program_counter = s.program_counter + 1 ∧
          s.program_counter + 1 + (op.bytes - 1) < 65536 ∧
          r = { s2 with program_counter := s2.program_counter + (op.bytes - 1) }) ∨
        (s2.program_counter ≠ s.program_counter + 1 ∧ r = s2)) := by
  simp only [step, Option.bind_eq_bind', Option.bind_eq_some', Option.pure_def,
    Option.some_inj] at h
  obtain ⟨pc1, hpc1, op, hop, h⟩ := h
  obtain ⟨rfl, hlt⟩ := chk16_eq_some hpc1
  split at h
  · exact absurd (Prod.mk.inj (Option.some.inj h)).1 Bool.noConfusion
  · simp only [Option.bind_eq_bind', Option.bind_eq_some', Option.pure_def,
      Option.some_inj] at h
    obtain ⟨s2, hs2, h⟩ := h
    obtain ⟨mn, hmn, hex⟩ := exec_char hs2
    refine ⟨op, mn, s2, hop, hmn, by assumption, hlt, hex, ?_⟩
    split at h
    · cases hc2 : chk16 (s2.program_counter + (op.bytes - 1)) with
      | none => rw [hc2] at h; simp at h
      | some pc2 =>
          rw [hc2] at h
          simp only [Option.some_bind', Option.some_inj] at h
          obtain ⟨rfl, hlt2⟩ := chk16_eq_some hc2
          obtain rfl := (Prod.mk.inj h).2
          exact Or.inl ⟨by assumption, by simp_all, rfl⟩
    · obtain rfl := (Prod.mk.inj (Option.some.inj h)).2
      exact Or.inr ⟨by assumption, rfl⟩

theorem step_pres {s : CPU} {b : Bool} {r : CPU} (h : step s = some (b, r)) :
    presBus s r := by
  cases b
  · obtain ⟨op, mn, s2, -, -, -, -, hex, hr⟩ := step_exec_char h
    have h1 : presBus { s with program_counter := s.program_counter + 1 } s2 :=
      (execMn_pres hex).1
    have h0 : presBus s { s with program_counter := s.program_counter + 1 } :=
      ⟨rfl, rfl, rfl⟩
    rcases hr with ⟨-, -, rfl⟩ | ⟨-, rfl⟩
    · exact presBus_trans (presBus_trans h0 h1) ⟨rfl, rfl, rfl⟩
    · exact presBus_trans h0 h1
  · obtain ⟨-, -, rfl⟩ := step_halt_char h
    exact ⟨rfl, rfl, rfl⟩

/-! Bit-level lemmas about the status register operations. -/

theorem land_insertFlag (p f g : Nat) (h : f &&& g = 0) :
    insertFlag p f &&& g = p &&& g := by
  apply Nat.eq_of_testBit_eq
  intro i
  have hb : (f &&& g).testBit i = false := by rw [h]; simp
  simp only [Nat.testBit_and, insertFlag, Nat.testBit_or] at hb ⊢
  cases hf : f.testBit i <;> cases hgb : g.testBit i <;> simp_all

theorem land_removeFlag (p f g : Nat) (hg : g < 256) (h : f &&& g = 0) :
    removeFlag p f &&& g = p &&& g := by
  apply Nat.eq_of_testBit_eq
  intro i
  have hb : (f &&& g).testBit i = false := by rw [h]; simp
  by_cases hi : i < 8
  · have h255 : (255 : Nat).testBit i = true := by interval_cases i <;> decide
    simp only [removeFlag, Nat.testBit_and, Nat.testBit_xor, h255] at hb ⊢
    cases hf : f.testBit i <;> cases hgb : g.testBit i <;> simp_all
  · have hgb : g.testBit i = false :=
      Nat.testBit_lt_two_pow (lt_of_lt_of_le hg (by
        calc (256 : Nat) = 2 ^ 8 := by norm_num
        _ ≤ 2 ^ i := Nat.pow_le_pow_right (by norm_num) (by omega)))
    simp [removeFlag, Nat.testBit_and, hgb]

theorem land_insertFlag_self (p f : Nat) : insertFlag p f &&& f = f := by
  apply Nat.eq_of_testBit_eq
  intro i
  simp only [insertFlag, Nat.testBit_and, Nat.testBit_or]
  cases f.testBit i <;> simp

theorem land_removeFlag_self (p f : Nat) (hf : f < 256) :
    removeFlag p f &&& f = 0 := by
  apply Nat.eq_of_testBit_eq
  intro i
  by_cases hi : i < 8
  · have h255 : (255 : Nat).testBit i = true := by interval_cases i <;> decide
    simp only [removeFlag, Nat.testBit_and, Nat.testBit_xor, h255, Nat.zero_testBit]
    cases f.testBit i <;> simp
  · have hfb : f.testBit i = false :=
      Nat.testBit_lt_two_pow (lt_of_lt_of_le hf (by
        calc (256 : Nat) = 2 ^ 8 := by norm_num
        _ ≤ 2 ^ i := Nat.pow_le_pow_right (by norm_num) (by omega)))
    simp [removeFlag, Nat.testBit_and, hfb]

theorem containsFlag_insertFlag_self (p f : Nat) :
    containsFlag (insertFlag p f) f = true := by
  simp [containsFlag, land_insertFlag_self]

theorem containsFlag_removeFlag_self (p f : Nat) (hf : f < 256) (hf0 : f ≠ 0) :
    containsFlag (removeFlag p f) f = false := by
  simp [containsFlag, land_removeFlag_self p f hf]
  omega

theorem containsFlag_insertFlag (p f g : Nat) (h : f &&& g = 0) :
    containsFlag (insertFlag p f) g = containsFlag p g := by
  simp [containsFlag, land_insertFlag p f g h]

theorem containsFlag_removeFlag (p f g : Nat) (hg : g < 256) (h : f &&& g = 0) :
    containsFlag (removeFlag p f) g = containsFlag p g := by
  simp [containsFlag, land_removeFlag p f g hg h]

/-! Characterization of the signed-overflow bit formula of
add_to_register_a against true signed overflow. -/

theorem formula_testBit (p q : Nat) :
    (p &&& q &&& 128 ≠ 0) ↔ (p / 128 % 2 = 1 ∧ q / 128 % 2 = 1) := by
  have h : (128 : Nat) = 2 ^ 7 := by norm_num
  rw [h, Nat.and_two_pow]
  rcases hb : (p &&& q).testBit 7 with _ | _ <;>
    simp only [Nat.testBit_and, Bool.and_eq_true, Bool.and_eq_false_iff] at hb <;>
    simp_all [Nat.testBit_to_div_mod] <;> omega

theorem xor_bit7 (x y : Nat) :
    (x ^^^ y) / 128 % 2 = 1 ↔ x / 128 % 2 ≠ y / 128 % 2 := by
  have h : (x ^^^ y) / 128 % 2 = 1 ↔ ((x ^^^ y).testBit 7) := by
    simp [Nat.testBit_to_div_mod]
  rw [h, Nat.testBit_xor]
  simp [Nat.testBit_to_div_mod]
  omega

theorem ovf_formula_iff (a b c : Nat) (ha : a < 256) (hb : b < 256) (hc : c < 2) :
    ((b ^^^ ((a + b + c) % 256)) &&& (((a + b + c) % 256) ^^^ a) &&& 128 ≠ 0) ↔
      signedAddOverflows a b c := by
  rw [formula_testBit, xor_bit7, xor_bit7]
  unfold signedAddOverflows toSigned
  rcases lt_or_ge a 128 with h1 | h1 <;> rcases lt_or_ge b 128 with h2 | h2 <;>
    simp only [if_pos, if_neg, not_lt, h1, h2] <;> omega

theorem busRead_busWrite_same (b : Bus) (addr v : Nat) :
    busRead (busWrite b addr v) addr = v % 256 := by
  simp [busRead, busWrite]

theorem busRead_busWrite_other (b : Bus) (addr v x : Nat)
    (h : x % 65536 ≠ addr % 65536) : busRead (busWrite b addr v) x = busRead b x := by
  simp [busRead, busWrite, h]

theorem busRead_lt (b : Bus) (a : Nat) : busRead b a < 256 := by
  simp [busRead]
  omega

theorem memRead_lt (s : CPU) (a : Nat) : s.memRead a < 256 := busRead_lt s.bus a

theorem and128_ne (x : Nat) (hx : x < 256) : (x &&& 128 ≠ 0) ↔ 128 ≤ x := by
  rw [show (128:Nat) = 2^7 by norm_num, Nat.and_two_pow]
  rcases hb : x.testBit 7 with _ | _ <;> simp_all [Nat.testBit_to_div_mod] <;> omega

/-! Characterization of add_to_register_a, one observable at a time. -/

theorem adc_A (s : CPU) (data : Nat) :
    (addToRegisterA s data).register_a =
      (s.register_a + data + (if containsFlag s.register_p CARRY then 1 else 0)) % 256 := rfl

theorem adc_carry (s : CPU) (data : Nat) :
    containsFlag (addToRegisterA s data).register_p CARRY =
      decide (s.register_a + data + (if containsFlag s.register_p CARRY then 1 else 0) > 255) := by
  unfold addToRegisterA setRegisterA updateZN
  cases hcv : containsFlag s.register_p CARRY <;>
    simp only [hcv, Bool.false_eq_true, if_true, if_false] <;>
    split_ifs <;>
      simp_all +decide [CARRY, containsFlag_insertFlag, containsFlag_removeFlag,
        containsFlag_insertFlag_self, containsFlag_removeFlag_self]

theorem adc_zero (s : CPU) (data : Nat) :
    containsFlag (addToRegisterA s data).register_p ZERO =
      decide ((s.register_a + data +
        (if containsFlag s.register_p CARRY then 1 else 0)) % 256 = 0) := by
  unfold addToRegisterA setRegisterA updateZN
  cases hcv : containsFlag s.register_p CARRY <;>
    simp only [hcv, Bool.false_eq_true, if_true, if_false] <;>
    split_ifs <;>
      simp_all +decide [ZERO, containsFlag_insertFlag, containsFlag_removeFlag,
        containsFlag_insertFlag_self, containsFlag_removeFlag_self]

theorem adc_neg (s : CPU) (data : Nat) :
    containsFlag (addToRegisterA s data).register_p NEGATIV =
      decide ((s.register_a + data +
        (if containsFlag s.register_p CARRY then 1 else 0)) % 256 &&& 128 ≠ 0) := by
  unfold addToRegisterA setRegisterA updateZN
  cases hcv : containsFlag s.register_p CARRY <;>
    simp only [hcv, Bool.false_eq_true, if_true, if_false] <;>
    split_ifs <;>
      simp_all +decide [NEGATIV, containsFlag_insertFlag, containsFlag_removeFlag,
        containsFlag_insertFlag_self, containsFlag_removeFlag_self]

theorem adc_overflow (s : CPU) (data : Nat) (ha : s.register_a < 256) (hd : data < 256) :
    containsFlag (addToRegisterA s data).register_p OVERFLOW =
      decide (signedAddOverflows s.register_a data
        (if containsFlag s.register_p CARRY then 1 else 0)) := by
  unfold addToRegisterA setRegisterA updateZN
  cases hcv : containsFlag s.register_p CARRY <;>
    simp only [hcv, Bool.false_eq_true, if_true, if_false] <;>
    split_ifs <;>
      simp_all +decide [OVERFLOW, containsFlag_insertFlag, containsFlag_removeFlag,
        containsFlag_insertFlag_self, containsFlag_removeFlag_self] <;>
      first
      | exact (ovf_formula_iff s.register_a data 1 ha hd (by omega)).mp (by assumption)
      | exact (ovf_formula_iff s.register_a data 0 ha hd (by omega)).mp (by assumption)
      | exact fun hs =>
          absurd ((ovf_formula_iff s.register_a data 1 ha hd (by omega)).mpr hs) (by assumption)
      | exact fun hs =>
          absurd ((ovf_formula_iff s.register_a data 0 ha hd (by omega)).mpr hs) (by assumption)
      | exact (ovf_formula_iff s.register_a data 1 ha hd (by omega)).mp (by simp_all)
      | exact (ovf_formula_iff s.register_a data 0 ha hd (by omega)).mp (by simp_all)
      | exact fun hs =>
          absurd ((ovf_formula_iff s.register_a data 1 ha hd (by omega)).mpr hs) (by simp_all)
      | exact fun hs =>
          absurd ((ovf_formula_iff s.register_a data 0 ha hd (by omega)).mpr hs) (by simp_all)

/-! Characterizations of the rotate instructions. -/

theorem rolA_char (s : CPU) :
    (rolRegisterA s).register_a =
      (if containsFlag s.register_p CARRY then s.register_a * 2 % 256 ||| 1
       else s.register_a * 2 % 256) ∧
    containsFlag (rolRegisterA s).register_p CARRY = decide (s.register_a / 128 = 1) ∧
    (rolRegisterA s).bus = s.bus := by
  unfold rolRegisterA updateZN setCarryFlag clearCarryFlag
  cases hcv : containsFlag s.register_p CARRY <;>
    simp only [hcv, Bool.false_eq_true, if_true, if_false] <;>
    split_ifs <;>
      simp_all +decide [CARRY, ZERO, NEGATIV, containsFlag_insertFlag,
        containsFlag_removeFlag, containsFlag_insertFlag_self, containsFlag_removeFlag_self]

theorem rorA_char (s : CPU) :
    (rorRegisterA s).register_a =
      (if containsFlag s.register_p CARRY then s.register_a / 2 ||| 128
       else s.register_a / 2) ∧
    containsFlag (rorRegisterA s).register_p CARRY = decide (s.register_a &&& 1 = 1) ∧
    (rorRegisterA s).bus = s.bus := by
  unfold rorRegisterA updateZN setCarryFlag clearCarryFlag
  cases hcv : containsFlag s.register_p CARRY <;>
    simp only [hcv, Bool.false_eq_true, if_true, if_false] <;>
    split_ifs <;>
      simp_all +decide [CARRY, ZERO, NEGATIV, containsFlag_insertFlag,
        containsFlag_removeFlag, containsFlag_insertFlag_self, containsFlag_removeFlag_self]

theorem auxA : ∀ a : Nat, a < 256 → ∀ c : Bool,
    (if a / 128 = 1 then ((if c then a*2%256 ||| 1 else a*2%256) / 2 ||| 128)
     else (if c then a*2%256 ||| 1 else a*2%256) / 2) = a := by decide

theorem auxC2 : ∀ a : Nat, a < 256 → ∀ c : Bool,
    decide ((if c then a*2%256 ||| 1 else a*2%256) &&& 1 = 1) = c := by decide

theorem auxLt : ∀ v : Nat, v < 256 → ∀ c : Bool,
    (if c then v * 2 % 256 ||| 1 else v * 2 % 256) < 256 := by decide

theorem rolA_rorA_roundtrip (s : CPU) (ha : s.register_a < 256) :
    (rorRegisterA (rolRegisterA s)).register_a = s.register_a ∧
    containsFlag (rorRegisterA (rolRegisterA s)).register_p CARRY =
      containsFlag s.register_p CARRY := by
  obtain ⟨ha1, hc1, -⟩ := rolA_char s
  obtain ⟨ha2, hc2, -⟩ := rorA_char (rolRegisterA s)
  rw [ha2, hc1, ha1, hc2, ha1]
  constructor
  · simp only [decide_eq_true_eq]
    exact auxA s.register_a ha (containsFlag s.register_p CARRY)
  · exact auxC2 s.register_a ha (containsFlag s.register_p CARRY)

theorem rol_obs (s : CPU) (m : Mode) (addr : Nat) (hA : getOperandAddress s m = some addr) :
    ∃ r, rol s m = some r ∧
      busRead r.bus addr =
        (if containsFlag s.register_p CARRY then s.memRead addr * 2 % 256 ||| 1
         else s.memRead addr * 2 % 256) % 256 ∧
      (∀ x, x % 65536 ≠ addr % 65536 → busRead r.bus x = busRead s.bus x) ∧
      containsFlag r.register_p CARRY = decide (s.memRead addr / 128 = 1) ∧
      r.program_counter = s.program_counter := by
  refine ⟨_, by rw [rol, hA]; rfl, ?_, ?_, ?_, ?_⟩
  · cases hcv : containsFlag s.register_p CARRY <;>
      simp [hcv, updateZN, CPU.memWrite, busRead_busWrite_same]
  · intro x hx
    cases hcv : containsFlag s.register_p CARRY <;>
      simp [hcv, updateZN, CPU.memWrite] <;>
      split_ifs <;> simp [CPU.memWrite, busRead_busWrite_other _ _ _ _ hx]
  · cases hcv : containsFlag s.register_p CARRY <;>
      simp only [hcv, Bool.false_eq_true, if_true, if_false, updateZN, setCarryFlag,
        clearCarryFlag, CPU.memWrite] <;>
      split_ifs <;>
        simp_all +decide [CARRY, ZERO, NEGATIV, containsFlag_insertFlag,
          containsFlag_removeFlag, containsFlag_insertFlag_self, containsFlag_removeFlag_self]
  · cases hcv : containsFlag s.register_p CARRY <;>
      simp [hcv, updateZN, CPU.memWrite] <;> split_ifs <;> simp

theorem ror_obs (s : CPU) (m : Mode) (addr : Nat) (hA : getOperandAddress s m = some addr) :
    ∃ r, ror s m = some r ∧
      busRead r.bus addr =
        (if containsFlag s.register_p CARRY then s.memRead addr / 2 ||| 128
         else s.memRead addr / 2) % 256 ∧
      containsFlag r.register_p CARRY = decide (s.memRead addr &&& 1 = 1) := by
  refine ⟨_, by rw [ror, hA]; rfl, ?_, ?_⟩
  · cases hcv : containsFlag s.register_p CARRY <;>
      simp [hcv, updateZN, CPU.memWrite, busRead_busWrite_same]
  · cases hcv : containsFlag s.register_p CARRY <;>
      simp only [hcv, Bool.false_eq_true, if_true, if_false, updateZN, setCarryFlag,
        clearCarryFlag, CPU.memWrite] <;>
      split_ifs <;>
        simp_all +decide [CARRY, ZERO, NEGATIV, containsFlag_insertFlag,
          containsFlag_removeFlag, containsFlag_insertFlag_self, containsFlag_removeFlag_self]

theorem rol_ror_mem_roundtrip (s : CPU)
    (hpc : s.program_counter % 65536 ≠ s.memRead s.program_counter) :
    ∃ r1 r2, rol s .zeroPage = some r1 ∧ ror r1 .zeroPage = some r2 ∧
      busRead r2.bus (s.memRead s.program_counter) =
        busRead s.bus (s.memRead s.program_counter) ∧
      containsFlag r2.register_p CARRY = containsFlag s.register_p CARRY := by
  have hz : getOperandAddress s .zeroPage = some (s.memRead s.program_counter) := rfl
  set z := s.memRead s.program_counter with hzdef
  set v := s.memRead z with hvdef
  have hv : v < 256 := memRead_lt s z
  set c := containsFlag s.register_p CARRY with hcdef
  obtain ⟨r1, hr1, hm1, hother1, hc1, hpc1⟩ := rol_obs s .zeroPage z hz
  have hvz : z % 65536 = z := Nat.mod_eq_of_lt (lt_of_lt_of_le (memRead_lt s _) (by norm_num))
  have hz2 : getOperandAddress r1 .zeroPage = some z := by
    show some (r1.memRead r1.program_counter) = some z
    rw [hpc1]
    show some (busRead r1.bus s.program_counter) = some z
    rw [hother1 s.program_counter (by rw [hvz]; exact hpc)]
    rfl
  obtain ⟨r2, hr2, hm2, hc2⟩ := ror_obs r1 .zeroPage z hz2
  have hv2lt : (if c then v * 2 % 256 ||| 1 else v * 2 % 256) < 256 := auxLt v hv c
  have hval1 : r1.memRead z = (if c then v * 2 % 256 ||| 1 else v * 2 % 256) := by
    show busRead r1.bus z = _
    rw [hm1, ← hcdef, ← hvdef, Nat.mod_eq_of_lt hv2lt]
  refine ⟨r1, r2, hr1, hr2, ?_, ?_⟩
  · rw [hm2, hval1, hc1, ← hvdef]
    simp only [decide_eq_true_eq]
    rw [auxA v hv c, Nat.mod_eq_of_lt hv]
    rfl
  · rw [hc2, hval1]
    exact (auxC2 v hv c).trans hcdef

/-! Claim theorems. -/

/-- Claim C1: the claim states that after each dispatched instruction the run loop
ticks the bus by the descriptor cycle count, so the PPU advances by 3n PPU
cycles per instruction. The code has no such call: across any successful
step, both the bus cycle counter and the PPU cycle counter are unchanged
(the PPU advances by 0 cycles), whereas a tick of any positive cycle count
n would have advanced the PPU counter by 3n, a different value. -/
theorem c1_run_loop_never_ticks_bus :
    (∀ s b r, step s = some (b, r) →
      r.bus.cycles = s.bus.cycles ∧ r.bus.ppuCycles = s.bus.ppuCycles) ∧
    (∀ bus n, 1 ≤ n → (Bus.tick bus n).ppuCycles = bus.ppuCycles + 3 * n ∧
      bus.ppuCycles + 3 * n ≠ bus.ppuCycles) := by
  constructor
  · intro s b r h
    obtain ⟨h1, h2, -⟩ := step_pres h
    exact ⟨h1, h2⟩
  · intro bus n hn
    exact ⟨rfl, by omega⟩

/-- Witness for C1: a concrete LDA immediate instruction leaves the PPU
cycle counter at 0, though its descriptor charges 2 CPU cycles, so a tick
would have advanced the PPU by 6. -/
theorem c1_run_loop_never_ticks_bus_witness :
    ((step (initCPU (memOf [(0x600, 0xa9), (0x601, 0x05)]))).map
      (fun t => t.2.bus.ppuCycles)) = some 0 ∧
    (Bus.tick (initCPU (memOf [])).bus 2).ppuCycles = 6 := by
  constructor
  · rcases hx : step (initCPU (memOf [(0x600, 0xa9), (0x601, 0x05)])) with _ | ⟨b, r⟩
    · have hs : (step (initCPU (memOf [(0x600, 0xa9), (0x601, 0x05)]))).isSome = true := by
        decide
      rw [hx] at hs
      cases hs
    · have h := (c1_run_loop_never_ticks_bus.1 _ b r hx).2
      rw [Option.map_some', h]
      rfl

  · exact ((c1_run_loop_never_ticks_bus.2 (initCPU (memOf [])).bus 2 (by omega)).1).trans rfl

/-- Claim C2: the claim states that at the top of every loop iteration the CPU
polls bus.poll_nmi_status and services an NMI when it is set. The code
never polls: any successful step leaves the NMI latch exactly as it was,
and a concrete step with the latch set and a NOP at PC executes the NOP
normally — PC moves to the next instruction instead of the 0xFFFA vector
(0x8000 here), the stack pointer stays 0xFD (nothing pushed), and the
status byte stays 0x24 — so no NMI service sequence occurs. -/
theorem c2_run_loop_never_polls_nmi :
    (∀ s b r, step s = some (b, r) → r.bus.nmiPending = s.bus.nmiPending) ∧
    ((step { initCPU (memOf [(0x600, 0xea), (0xFFFA, 0x00), (0xFFFB, 0x80)]) with
        bus.nmiPending := true }).map
      (fun t => (t.1, t.2.program_counter, t.2.stack_pointer, t.2.register_p,
        t.2.bus.nmiPending))) =
      some (false, 0x0601, 0xFD, 0x24, true) := by
  constructor
  · intro s b r h
    exact (step_pres h).2.2
  · decide

/-- Witness for C2: the universal part applied to the same concrete NOP
step with the NMI latch set. -/
theorem c2_run_loop_never_polls_nmi_witness :
    ((step { initCPU (memOf [(0x600, 0xea), (0xFFFA, 0x00), (0xFFFB, 0x80)]) with
        bus.nmiPending := true }).map (fun t => t.2.bus.nmiPending)) = some true := by
  rcases hx : step ({ initCPU (memOf [(0x600, 0xea), (0xFFFA, 0x00), (0xFFFB, 0x80)]) with
      bus.nmiPending := true }) with _ | ⟨b, r⟩
  · have hs : (step { initCPU (memOf [(0x600, 0xea), (0xFFFA, 0x00), (0xFFFB, 0x80)]) with
        bus.nmiPending := true }).isSome = true := by decide
    rw [hx] at hs
    cases hs
  · have h := c2_run_loop_never_polls_nmi.1 _ b r hx
    rw [Option.map_some', h]

/-- Claim C3: the claim states LSR always leaves Carry equal to bit 0 of the
original operand, for the accumulator and the memory forms alike. The
memory form of lsr sets Carry when bit 0 is 1 but has no else branch, so
with operand 0x02 (bit 0 clear) and Carry initially set, executing
LSR $10 leaves Carry still set while bit 0 of the operand is 0; the
accumulator form on the same operand value clears Carry as claimed. -/
theorem c3_lsr_memory_keeps_stale_carry :
    ((step { initCPU (memOf [(0x600, 0x46), (0x601, 0x10), (0x10, 0x02)]) with
        register_p := 0x25 }).map
      (fun t => (containsFlag t.2.register_p CARRY, t.2.memRead 0x10))) =
      some (true, 0x01) ∧
    (0x02 : Nat) &&& 1 = 0 ∧
    containsFlag (lsrRegisterA
        { initCPU (memOf []) with register_a := 0x02, register_p := 0x25 }).register_p
      CARRY = false := by
  refine ⟨by decide, by decide, by decide⟩

/-- Claim C10: the opcode fetch increments PC with the checked u16 addition and
JSR computes the pushed return address as PC + 2 − 1 with checked
addition, so execution aborts (the step is none) when the fetch happens at
PC = 0xFFFF, and when a JSR opcode is fetched with PC ≥ 0xFFFD — that is,
with the post-fetch PC at 0xFFFE or beyond — instead of wrapping to
0x0000. -/
theorem c10_pc_overflow_aborts (s : CPU) :
    (s.program_counter = 0xFFFF → step s = none) ∧
    (s.memRead s.program_counter = 0x20 → 0xFFFD ≤ s.program_counter → step s = none) := by
  constructor
  · intro h
    simp [step, h, chk16]
  · intro hcode hge
    cases hx : step s with
    | none => rfl
    | some x =>
        exfalso
        obtain ⟨b, r⟩ := x
        cases b with
        | false =>
            obtain ⟨op, mn, s2, hop, hmn, hne0, hlt, hex, -⟩ := step_exec_char hx
            rw [hcode] at hmn
            obtain rfl : Mn.jsr = mn :=
              Option.some.inj ((rfl : decodeMn 0x20 = some Mn.jsr).symm.trans hmn)
            have hnone : chk16 (s.program_counter + 1 + 2) = none := by
              unfold chk16
              rw [if_neg]
              omega
            simp only [execMn, Option.bind_eq_bind'] at hex
            rw [hnone, Option.none_bind'] at hex
            exact Option.noConfusion hex
        | true =>
            obtain ⟨hm, -, -⟩ := step_halt_char hx
            rw [hcode] at hm
            exact absurd hm (by decide)

/-- Witness for C10: a fetch at PC = 0xFFFF aborts, and a JSR opcode
fetched at PC = 0xFFFD aborts. -/
theorem c10_pc_overflow_aborts_witness :
    step { initCPU (fun _ => 0xea) with program_counter := 0xFFFF } = none ∧
    step { initCPU (memOf [(0xFFFD, 0x20)]) with program_counter := 0xFFFD } = none :=
  ⟨(c10_pc_overflow_aborts _).1 rfl,
   (c10_pc_overflow_aborts _).2 (by decide) (by decide)⟩

/-- Claim C4, amended: run_with_callback executes instructions until a BRK
opcode is fetched — on a successful run the byte fetched for the final
executed instruction is 0x00 — and invokes the callback after each
executed instruction EXCEPT the final BRK: the BRK arm returns from the
loop before the callback call, so the callback count is exactly the
executed-instruction count minus one. -/
theorem c4_callback_after_each_instruction_except_brk :
    ∀ (fuel : Nat) (s r : CPU) (n k : Nat), runCb fuel s = some (r, n, k) →
      k + 1 = n ∧ r.memRead (r.program_counter - 1) = 0 := by
  intro fuel
  induction fuel with
  | zero =>
      intro s r n k h
      exact absurd h (by simp [runCb])
  | succ f ih =>
      intro s r n k h
      simp only [runCb, Option.bind_eq_bind', Option.bind_eq_some', Option.pure_def,
        Option.some_inj] at h
      obtain ⟨⟨halted, s1⟩, hs, h⟩ := h
      cases halted
      · simp only [Bool.false_eq_true, if_false, Option.bind_eq_bind',
          Option.bind_eq_some', Option.pure_def, Option.some_inj] at h
        obtain ⟨⟨r2, n2, k2⟩, hrec, h⟩ := h
        injection h with h1 h23
        injection h23 with h2 h3
        subst h1
        subst h2
        subst h3
        obtain ⟨ihk, ihm⟩ := ih s1 r2 n2 k2 hrec
        refine ⟨?_, ihm⟩
        dsimp only
        omega
      · simp only [if_true, Option.some_inj] at h
        injection h with h1 h23
        injection h23 with h2 h3
        subst h1
        subst h2
        subst h3
        obtain ⟨hm, hlt, rfl⟩ := step_halt_char hs
        refine ⟨rfl, ?_⟩
        show busRead s.bus (s.program_counter + 1 - 1) = 0
        rw [Nat.add_sub_cancel]
        exact hm

/-- Counterexample for C4 as stated: running a program consisting of a
single BRK executes 1 instruction but invokes the callback 0 times, while
the claim — a callback after each executed instruction, the final BRK
included — demands 1. -/
theorem c4_counterexample :
    ((runCb 1 (initCPU (fun _ => 0))).map (fun t => (t.2.1, t.2.2))) = some (1, 0) ∧
    (0 : Nat) ≠ 1 := ⟨by decide, by decide⟩

/-- Witness for C4: the program LDA number 5 then BRK executes two
instructions with one callback, and the byte fetched for the final
instruction is 0x00. -/
theorem c4_callback_after_each_instruction_except_brk_witness :
    ((runCb 3 (initCPU (memOf [(0x600, 0xa9), (0x601, 0x05)]))).map
      (fun t => decide (t.2.2 + 1 = t.2.1))) = some true ∧
    ((runCb 3 (initCPU (memOf [(0x600, 0xa9), (0x601, 0x05)]))).map
      (fun t => t.1.memRead (t.1.program_counter - 1))) = some 0 := by
  rcases hx : runCb 3 (initCPU (memOf [(0x600, 0xa9), (0x601, 0x05)])) with _ | ⟨r, n, k⟩
  · have hs : (runCb 3 (initCPU (memOf [(0x600, 0xa9), (0x601, 0x05)]))).isSome = true := by
      decide
    rw [hx] at hs
    cases hs
  · obtain ⟨h1, h2⟩ := c4_callback_after_each_instruction_except_brk 3 _ r n k hx
    constructor
    · rw [Option.map_some']
      simp [h1]
    · rw [Option.map_some', h2]

/-- Claim C5, amended: after fetching an opcode the loop saves the post-fetch
PC and, after the dispatch, auto-advances PC by (length − 1) exactly when
the dispatch left PC equal to the saved value. Consequently a
non-control-flow arm (one that never assigns PC) always gets the
auto-advance, and a control-flow arm keeps the PC it assigned exactly when
that value differs from the post-fetch PC; when a control-flow instruction
assigns PC a value equal to the post-fetch PC, the auto-advance is applied
on top of it rather than suppressed. -/
theorem c5_pc_advance (s r : CPU) (op : OpInfo) (mn : Mn) (s2 : CPU)
    (h : step s = some (false, r))
    (hop : decode (s.memRead s.program_counter) = some op)
    (hmn : decodeMn (s.memRead s.program_counter) = some mn)
    (hex : execMn mn op.mode { s with program_counter := s.program_counter + 1 } = some s2) :
    (mn.writesPC = false → s2.program_counter = s.program_counter + 1 ∧
      r.program_counter = s.program_counter + 1 + (op.bytes - 1)) ∧
    (s2.program_counter ≠ s.program_counter + 1 → r.program_counter = s2.program_counter) ∧
    (s2.program_counter = s.program_counter + 1 →
      r.program_counter = s.program_counter + 1 + (op.bytes - 1)) := by
  obtain ⟨op2, mn2, s2b, hop2, hmn2, -, -, hex2, hdisj⟩ := step_exec_char h
  obtain rfl := Option.some.inj (hop.symm.trans hop2)
  obtain rfl := Option.some.inj (hmn.symm.trans hmn2)
  obtain rfl := Option.some.inj (hex.symm.trans hex2)
  have hcase :
      (s2.program_counter ≠ s.program_counter + 1 → r.program_counter = s2.program_counter) ∧
      (s2.program_counter = s.program_counter + 1 →
        r.program_counter = s.program_counter + 1 + (op.bytes - 1)) := by
    rcases hdisj with ⟨heq, -, rfl⟩ | ⟨hne, rfl⟩
    · constructor
      · intro hne
        exact absurd heq hne
      · intro h2
        simp [heq]
    · constructor
      · intro _
        rfl
      · intro h2
        exact absurd h2 hne
  refine ⟨?_, hcase.1, hcase.2⟩
  intro hw
  have hpcpres := (execMn_pres hex).2 hw
  have h2 : s2.program_counter = s.program_counter + 1 := by
    rw [hpcpres]
  exact ⟨h2, hcase.2 h2⟩

/-- Counterexample for C5 as stated: the control-flow instruction JMP
0x0601 located at 0x0600 assigns PC the value 0x0601, which equals the
post-fetch PC, and the claim says the auto-advance is suppressed even
then, leaving PC = 0x0601; the code applies the auto-advance and ends the
step with PC = 0x0603. -/
theorem c5_counterexample :
    ((step (initCPU (memOf [(0x600, 0x4c), (0x601, 0x01), (0x602, 0x06)]))).map
      (fun t => t.2.program_counter)) = some 0x0603 ∧
    ((execMn .jmpAbs Mode.noneAddressing
        { initCPU (memOf [(0x600, 0x4c), (0x601, 0x01), (0x602, 0x06)]) with
          program_counter := 0x0601 }).map (fun t => t.program_counter)) = some 0x0601 ∧
    (0x0603 : Nat) ≠ 0x0601 := ⟨by decide, by decide, by decide⟩

/-- Witness for C5: LDA immediate at 0x0600 is a 2-byte non-control-flow
instruction, so the step ends with PC = 0x0602. -/
theorem c5_pc_advance_witness :
    ((step (initCPU (memOf [(0x600, 0xa9), (0x601, 0x05)]))).map
      (fun t => t.2.program_counter)) = some 0x0602 := by
  rcases hx : step (initCPU (memOf [(0x600, 0xa9), (0x601, 0x05)])) with _ | ⟨b, r⟩
  · have hs : (step (initCPU (memOf [(0x600, 0xa9), (0x601, 0x05)]))).isSome = true := by
      decide
    rw [hx] at hs
    cases hs
  · cases b
    · rcases hy : execMn Mn.lda Mode.immediate
          { initCPU (memOf [(0x600, 0xa9), (0x601, 0x05)]) with
            program_counter := 0x0601 } with _ | s2
      · have hs2 : (execMn Mn.lda Mode.immediate
            { initCPU (memOf [(0x600, 0xa9), (0x601, 0x05)]) with
              program_counter := 0x0601 }).isSome = true := by decide
        rw [hy] at hs2
        cases hs2
      · have h := (c5_pc_advance _ r ⟨2, Mode.immediate⟩ Mn.lda s2 hx rfl rfl hy).1 rfl
        rw [Option.map_some', h.2]
        rfl
    · have hs : (step (initCPU (memOf [(0x600, 0xa9), (0x601, 0x05)]))).map Prod.fst ≠
          some true := by decide
      rw [hx] at hs
      exact absurd rfl hs

theorem land255_mod (x : Nat) : x &&& 255 = x % 256 := by
  apply Nat.eq_of_testBit_eq
  intro i
  have h256 : (256 : Nat) = 2 ^ 8 := by norm_num
  rw [Nat.testBit_and, h256, Nat.testBit_mod_two_pow]
  by_cases hi : i < 8
  · have h255 : (255 : Nat).testBit i = true := by interval_cases i <;> decide
    simp [h255, hi]
  · have h255 : (255 : Nat).testBit i = false := by
      have h2 : (2:Nat) ^ 8 ≤ 2 ^ i := Nat.pow_le_pow_right (by norm_num) (by omega)
      exact Nat.testBit_lt_two_pow (lt_of_lt_of_le (by norm_num : (255:Nat) < 2 ^ 8) h2)
    simp [h255, hi]

/-- Claim C6: for any accumulator value a and operand byte b below 256 and the
carry-in taken from the Carry flag, add_to_register_a — which adc feeds
with the operand byte — leaves A = (a + b + c) mod 256, sets Carry exactly
when a + b + c exceeds 255, sets Overflow exactly when the true signed
(twos-complement) sum leaves [-128, 127], and sets Zero and Negative from
the 8-bit result. -/
theorem c6_adc_arithmetic (s : CPU) (b : Nat) (ha : s.register_a < 256) (hb : b < 256) :
    (addToRegisterA s b).register_a =
      (s.register_a + b + (if containsFlag s.register_p CARRY then 1 else 0)) % 256 ∧
    containsFlag (addToRegisterA s b).register_p CARRY =
      decide (s.register_a + b + (if containsFlag s.register_p CARRY then 1 else 0) > 255) ∧
    containsFlag (addToRegisterA s b).register_p OVERFLOW =
      decide (signedAddOverflows s.register_a b
        (if containsFlag s.register_p CARRY then 1 else 0)) ∧
    containsFlag (addToRegisterA s b).register_p ZERO =
      decide ((s.register_a + b +
        (if containsFlag s.register_p CARRY then 1 else 0)) % 256 = 0) ∧
    containsFlag (addToRegisterA s b).register_p NEGATIV =
      decide (128 ≤ (s.register_a + b +
        (if containsFlag s.register_p CARRY then 1 else 0)) % 256) := by
  refine ⟨adc_A s b, adc_carry s b, adc_overflow s b ha hb, adc_zero s b, ?_⟩
  rw [adc_neg]
  simp only [decide_eq_decide]
  exact and128_ne _ (Nat.mod_lt _ (by norm_num))

/-- Witness for C6: spec scenario 6 — A = 0x50, Carry clear, ADC operand
0x50 gives A = 0xA0 with Carry clear, Overflow set, Negative set. -/
theorem c6_adc_arithmetic_witness :
    (addToRegisterA { initCPU (memOf []) with register_a := 0x50 } 0x50).register_a = 0xA0 ∧
    containsFlag (addToRegisterA { initCPU (memOf []) with
      register_a := 0x50 } 0x50).register_p CARRY = false ∧
    containsFlag (addToRegisterA { initCPU (memOf []) with
      register_a := 0x50 } 0x50).register_p OVERFLOW = true ∧
    containsFlag (addToRegisterA { initCPU (memOf []) with
      register_a := 0x50 } 0x50).register_p NEGATIV = true := by
  have h := c6_adc_arithmetic { initCPU (memOf []) with register_a := 0x50 } 0x50
    (by decide) (by decide)
  exact ⟨h.1.trans (by decide), h.2.1.trans (by decide), h.2.2.1.trans (by decide),
    h.2.2.2.2.trans (by decide)⟩

/-- Claim C7: the JMP indirect arm (opcode 0x6C) reads the pointer word at the
post-fetch PC; when the pointer low byte is 0xFF it loads the new PC low
byte from the pointer address and the high byte from pointer AND 0xFF00 —
the start of the same page — and for all other pointers it loads a normal
little-endian word from pointer and pointer + 1. -/
theorem c7_jmp_indirect_page_bug (s : CPU) (ptr : Nat)
    (hptr : memReadU16 s s.program_counter = some ptr) :
    decodeMn 0x6c = some Mn.jmpInd ∧
    (ptr &&& 0x00FF = 0x00FF →
      (execMn .jmpInd .noneAddressing s).map (fun t => t.program_counter) =
        some (256 * s.memRead (ptr &&& 0xFF00) + s.memRead ptr)) ∧
    (ptr &&& 0x00FF ≠ 0x00FF →
      (execMn .jmpInd .noneAddressing s).map (fun t => t.program_counter) =
        some (256 * s.memRead (ptr + 1) + s.memRead ptr)) := by
  have hlt : ptr < 65536 := by
    unfold memReadU16 at hptr
    rcases hc : chk16 (s.program_counter + 1) with _ | p1
    · rw [hc] at hptr
      simp at hptr
    · rw [hc] at hptr
      simp only [Option.bind_eq_bind', Option.some_bind', Option.pure_def,
        Option.some_inj] at hptr
      have h1 := memRead_lt s p1
      have h2 := memRead_lt s s.program_counter
      omega
  refine ⟨rfl, ?_, ?_⟩
  · intro hc
    simp only [execMn, Option.bind_eq_bind', hptr, Option.some_bind', if_pos hc]
    rfl
  · intro hc
    simp only [execMn, Option.bind_eq_bind', hptr, Option.some_bind', if_neg hc]
    have hne : ptr ≠ 65535 := by
      intro h
      rw [h] at hc
      exact hc (by decide)
    have hc16 : chk16 (ptr + 1) = some (ptr + 1) := chk16_of_lt (by omega)
    simp only [memReadU16, Option.bind_eq_bind', hc16, Option.some_bind']
    rfl

/-- Witness for C7: spec scenario 5 — pointer 0x30FF with low byte at
0x30FF = 0x00 and the byte at 0x3000 = 0x30 (while 0x3100 holds junk
0x99): the jump goes to 0x3000, not to a word using the 0x3100 byte. -/
theorem c7_jmp_indirect_page_bug_witness :
    ((execMn .jmpInd .noneAddressing
        { initCPU (memOf [(0x600, 0x6c), (0x601, 0xff), (0x602, 0x30), (0x30FF, 0x00),
            (0x3000, 0x30), (0x3100, 0x99)]) with program_counter := 0x601 }).map
      (fun t => t.program_counter)) = some 0x3000 ∧ (0x3000 : Nat) ≠ 0x9900 := by
  have h := (c7_jmp_indirect_page_bug
      { initCPU (memOf [(0x600, 0x6c), (0x601, 0xff), (0x602, 0x30), (0x30FF, 0x00),
          (0x3000, 0x30), (0x3100, 0x99)]) with program_counter := 0x601 }
      0x30FF rfl).2.1 (by decide)
  exact ⟨h.trans (by decide), by decide⟩

/-- Claim C8: rotating left then right restores both the byte and the Carry
flag: on the accumulator for any A below 256 and any starting Carry, and
on the same zero-page memory operand (the operand byte must not alias the
byte the instruction takes its zero-page address from) for any stored
byte and any starting Carry. -/
theorem c8_rol_then_ror_roundtrip (s : CPU) (ha : s.register_a < 256)
    (hpc : s.program_counter % 65536 ≠ s.memRead s.program_counter) :
    ((rorRegisterA (rolRegisterA s)).register_a = s.register_a ∧
      containsFlag (rorRegisterA (rolRegisterA s)).register_p CARRY =
        containsFlag s.register_p CARRY) ∧
    (∀ r1 r2, rol s .zeroPage = some r1 → ror r1 .zeroPage = some r2 →
      busRead r2.bus (s.memRead s.program_counter) =
        busRead s.bus (s.memRead s.program_counter) ∧
      containsFlag r2.register_p CARRY = containsFlag s.register_p CARRY) := by
  refine ⟨rolA_rorA_roundtrip s ha, ?_⟩
  intro r1 r2 h1 h2
  obtain ⟨t1, t2, ht1, ht2, hb, hcf⟩ := rol_ror_mem_roundtrip s hpc
  obtain rfl := Option.some.inj (ht1.symm.trans h1)
  obtain rfl := Option.some.inj (ht2.symm.trans h2)
  exact ⟨hb, hcf⟩

/-- Witness for C8: A = 0xB7 with Carry set round trips through ROL A and
ROR A, and memory operand 0x5A at zero-page address 0x10 round trips
through ROL then ROR on it. -/
theorem c8_rol_then_ror_roundtrip_witness :
    (rorRegisterA (rolRegisterA
      { initCPU (memOf [(0x600, 0x10), (0x10, 0x5A)]) with register_a := 0xB7, register_p := 0x25 })).register_a = 0xB7 ∧
    containsFlag (rorRegisterA (rolRegisterA
      { initCPU (memOf [(0x600, 0x10), (0x10, 0x5A)]) with register_a := 0xB7, register_p := 0x25 })).register_p CARRY = true := by
  have h := (c8_rol_then_ror_roundtrip
      { initCPU (memOf [(0x600, 0x10), (0x10, 0x5A)]) with register_a := 0xB7, register_p := 0x25 } (by decide) (by decide)).1
  exact ⟨h.1.trans (by decide), h.2.trans (by decide)⟩

/-- Claim C9: pushing then popping returns the pushed byte and restores the
stack pointer; the push writes only at 0x0100 + S, an address inside
0x0100–0x01FF; the pop reads at 0x0100 + S after the wrapping increment,
also inside 0x0100–0x01FF; and both pointer updates wrap modulo 256. -/
theorem c9_stack_push_pop (s : CPU) (v : Nat) (hsp : s.stack_pointer < 256)
    (hv : v < 256) :
    (stackPop (stackPush s v)).1 = v ∧
    (stackPop (stackPush s v)).2.stack_pointer = s.stack_pointer ∧
    (∀ x, (stackPush s v).bus.mem x ≠ s.bus.mem x →
      x = STACK + s.stack_pointer ∧ 0x0100 ≤ x ∧ x ≤ 0x01FF) ∧
    (stackPush s v).stack_pointer = (s.stack_pointer + 255) % 256 ∧
    (stackPop s).2.stack_pointer = (s.stack_pointer + 1) % 256 ∧
    0x0100 ≤ STACK + (s.stack_pointer + 1) % 256 ∧
    STACK + (s.stack_pointer + 1) % 256 ≤ 0x01FF := by
  have hwrap : ((s.stack_pointer + 255) % 256 + 1) % 256 = s.stack_pointer := by omega
  refine ⟨?_, ?_, ?_, rfl, rfl, ?_, ?_⟩
  · show busRead (stackPush s v).bus
      (STACK + ((stackPush s v).stack_pointer + 1) % 256) = v
    show busRead (busWrite s.bus (STACK + s.stack_pointer) v)
      (STACK + ((s.stack_pointer + 255) % 256 + 1) % 256) = v
    rw [hwrap, busRead_busWrite_same, Nat.mod_eq_of_lt hv]
  · show ((s.stack_pointer + 255) % 256 + 1) % 256 = s.stack_pointer
    exact hwrap
  · intro x hx
    have : (busWrite s.bus (STACK + s.stack_pointer) v).mem x ≠ s.bus.mem x := hx
    unfold busWrite at this
    by_cases hxa : x = (STACK + s.stack_pointer) % 65536
    · subst hxa
      have heq : (STACK + s.stack_pointer) % 65536 = STACK + s.stack_pointer :=
        Nat.mod_eq_of_lt (by unfold STACK; omega)
      rw [heq]
      unfold STACK
      omega
    · simp only [hxa, if_false] at this
      exact absurd rfl this
  · unfold STACK
    omega
  · unfold STACK
    omega

/-- Witness for C9: pushing 0xAB with S = 0xFD pops back 0xAB and
restores S = 0xFD. -/
theorem c9_stack_push_pop_witness :
    (stackPop (stackPush (initCPU (memOf [])) 0xAB)).1 = 0xAB ∧
    (stackPop (stackPush (initCPU (memOf [])) 0xAB)).2.stack_pointer = 0xFD := by
  have h := c9_stack_push_pop (initCPU (memOf [])) 0xAB (by decide) (by decide)
  exact ⟨h.1, h.2.1.trans (by decide)⟩

end NesCpu
